import Mathlib

/-
Verification development for the Ping binary message protocol implementation
(brping/pingmessage.py): a shallow embedding of the message codec
(PingMessage.pack_msg_data / unpack_msg_data / calculate_checksum /
verify_checksum) and of the streaming parser (PingParser.parse_byte),
together with theorems about round-tripping, checksumming, error behaviour
and the parser state machine.

Machine integers are modelled as Nat with explicit bounds (a byte is a Nat
that is < 256); Python exceptions are modelled as an explicit error type
threaded through Except.
-/

namespace Ping

/-- Python struct format codes used by the protocol: unsigned little-endian
integers (B = u8, H = u16, I = u32) and a fixed-size byte string, "Ns". -/
inductive StructCode where
  | B : StructCode
  | H : StructCode
  | I : StructCode
  | s : Nat → StructCode
deriving DecidableEq, Repr

/-- A value in a Python struct tuple: an int or a bytes object.
Bytes are lists of Nats (each < 256 for real Python bytes). -/
inductive Val where
  | vint : Nat → Val
  | vbytes : List Nat → Val
deriving DecidableEq, Repr

/-- Python exceptions observable from the embedded code. -/
inductive PyErr where
  | structError : PyErr
  | keyError : PyErr
  | typeError : PyErr
  | attributeError : PyErr
deriving DecidableEq, Repr

/-- Number of bytes struct.calcsize assigns to one format code. -/
def StructCode.size : StructCode → Nat
  | .B => 1
  | .H => 2
  | .I => 4
  | .s n => n

/-- struct.calcsize for a whole format string. -/
def fmtSize (fmt : List StructCode) : Nat := (fmt.map StructCode.size).sum

/-- Pack a single value under a single format code (little-endian), as
struct.pack does: out-of-range integers and wrongly-typed arguments raise
struct.error (modelled as none); an "Ns" code pads with zero bytes or
truncates its bytes argument to exactly n bytes. -/
def packCode : StructCode → Val → Option (List Nat)
  | .B, .vint v => if v < 256 then some [v] else none
  | .H, .vint v => if v < 65536 then some [v % 256, v / 256] else none
  | .I, .vint v =>
      if v < 4294967296 then
        some [v % 256, v / 256 % 256, v / 65536 % 256, v / 16777216 % 256]
      else none
  | .s n, .vbytes bs => some (bs.take n ++ List.replicate (n - bs.length) 0)
  | _, _ => none

/-- struct.pack: packs a tuple of values against a format string; raises
struct.error (none) when the number of values does not match the number of
format codes or when any single value fails to pack. -/
def structPack : List StructCode → List Val → Option (List Nat)
  | [], [] => some []
  | c :: fmt, v :: vals =>
      match packCode c v, structPack fmt vals with
      | some b, some rest => some (b ++ rest)
      | _, _ => none
  | _, _ => none

/-- Little-endian value of a list of bytes. -/
def readLE (bs : List Nat) : Nat := bs.foldr (fun b acc => b + 256 * acc) 0

/-- Decode one struct code from exactly `c.size` bytes. -/
def unpackCode (c : StructCode) (bs : List Nat) : Val :=
  match c with
  | .s _ => .vbytes bs
  | _ => .vint (readLE bs)

/-- struct.unpack: requires the buffer length to equal struct.calcsize of the
format (otherwise struct.error, modelled as none). -/
def structUnpack : List StructCode → List Nat → Option (List Val)
  | [], bs => if bs = [] then some [] else none
  | c :: fmt, bs =>
      if c.size ≤ bs.length then
        (structUnpack fmt (bs.drop c.size)).map (unpackCode c (bs.take c.size) :: ·)
      else none

/-- One entry of the payload_dict schema table. -/
structure SchemaEntry where
  name : String
  format : List StructCode
  field_names : List String
  payload_length : Nat
deriving DecidableEq, Repr

/-- The payload_dict schema registry from pingmessage.py, keyed by message
id; dictionary lookup is modelled as a chain of key comparisons, absent keys
give none (a KeyError at the call sites that index the dict directly). -/
def payload_dict (msg_id : Nat) : Option SchemaEntry :=
  if msg_id = 1 then some ⟨"ack", [.H], ["acked_id"], 2⟩
  else if msg_id = 3 then some ⟨"ascii_text", [], ["ascii_message"], 0⟩
  else if msg_id = 1400 then some ⟨"continuous_start", [.H], ["id"], 2⟩
  else if msg_id = 1401 then some ⟨"continuous_stop", [.H], ["id"], 2⟩
  else if msg_id = 1201 then some ⟨"device_id", [.B], ["device_id"], 1⟩
  else if msg_id = 1212 then
    some ⟨"distance", [.I, .H, .H, .I, .I, .I, .I],
      ["distance", "confidence", "pulse_duration", "ping_number",
       "scan_start", "scan_length", "gain_index"], 24⟩
  else if msg_id = 1211 then
    some ⟨"distance_simple", [.I, .B], ["distance", "confidence"], 5⟩
  else if msg_id = 1200 then
    some ⟨"firmware_version", [.B, .B, .H, .H],
      ["device_type", "device_model", "firmware_version_major",
       "firmware_version_minor"], 6⟩
  else if msg_id = 1207 then some ⟨"gain_index", [.I], ["gain_index"], 4⟩
  else if msg_id = 1210 then
    some ⟨"general_info", [.H, .H, .H, .H, .B, .B],
      ["firmware_version_major", "firmware_version_minor", "voltage_5",
       "ping_interval", "gain_index", "mode_auto"], 10⟩
  else if msg_id = 1100 then some ⟨"goto_bootloader", [], [], 0⟩
  else if msg_id = 1205 then some ⟨"mode_auto", [.B], ["mode_auto"], 1⟩
  else if msg_id = 2 then
    some ⟨"nack", [.H], ["nacked_id", "nack_message"], 2⟩
  else if msg_id = 1214 then
    some ⟨"pcb_temperature", [.H], ["pcb_temperature"], 2⟩
  else if msg_id = 1215 then some ⟨"ping_enable", [.B], ["ping_enabled"], 1⟩
  else if msg_id = 1206 then
    some ⟨"ping_interval", [.H], ["ping_interval"], 2⟩
  else if msg_id = 1213 then
    some ⟨"processor_temperature", [.H], ["processor_temperature"], 2⟩
  else if msg_id = 1300 then
    some ⟨"profile", [.I, .H, .H, .I, .I, .I, .I, .H],
      ["distance", "confidence", "pulse_duration", "ping_number",
       "scan_start", "scan_length", "gain_index", "profile_data_length",
       "profile_data"], 26⟩
  else if msg_id = 5 then
    some ⟨"protocol_version", [.I], ["protocol_version"], 4⟩
  else if msg_id = 1208 then
    some ⟨"pulse_duration", [.H], ["pulse_duration"], 2⟩
  else if msg_id = 1204 then
    some ⟨"range", [.I, .I], ["scan_start", "scan_length"], 8⟩
  else if msg_id = 1000 then some ⟨"set_device_id", [.B], ["device_id"], 1⟩
  else if msg_id = 1005 then some ⟨"set_gain_index", [.B], ["gain_index"], 1⟩
  else if msg_id = 1003 then some ⟨"set_mode_auto", [.B], ["mode_auto"], 1⟩
  else if msg_id = 1006 then
    some ⟨"set_ping_enable", [.B], ["ping_enabled"], 1⟩
  else if msg_id = 1004 then
    some ⟨"set_ping_interval", [.H], ["ping_interval"], 2⟩
  else if msg_id = 1001 then
    some ⟨"set_range", [.I, .I], ["scan_start", "scan_length"], 8⟩
  else if msg_id = 1002 then
    some ⟨"set_speed_of_sound", [.I], ["speed_of_sound"], 4⟩
  else if msg_id = 1203 then
    some ⟨"speed_of_sound", [.I], ["speed_of_sound"], 4⟩
  else if msg_id = 0 then some ⟨"undefined", [], [], 0⟩
  else if msg_id = 1202 then some ⟨"voltage_5", [.H], ["voltage_5"], 2⟩
  else none

/-- Message ids whose trailing field is a text string. -/
def asciiMsgs : List Nat := [2, 3]

/-- Message ids whose trailing field is a variable-length vector. -/
def variable_msgs : List Nat := [1300]

/-- Whether a message id has a dynamic-length trailing field. -/
def isDynamic (msg_id : Nat) : Bool :=
  msg_id ∈ variable_msgs || msg_id ∈ asciiMsgs

/-- The PingMessage object: header attributes, the raw buffer, and the
payload attributes. payload_attrs holds the values of the schema's
field_names, in order, when they have been populated (by the caller before
packing, or by unpack_msg_data after a successful payload unpack); none
models attributes that were never set. -/
structure PingMessage where
  start_1 : Nat := 66
  start_2 : Nat := 82
  message_id : Nat
  request_id : Option Nat := none
  payload_length : Nat := 0
  dst_device_id : Nat := 0
  src_device_id : Nat := 0
  checksum : Nat := 0
  msg_data : List Nat := []
  payload_attrs : Option (List Val) := none
deriving DecidableEq, Repr

/-- Header struct format "BBHHBB". -/
def header_format : List StructCode := [.B, .B, .H, .H, .B, .B]

/-- Checksum struct format "H". -/
def checksum_format : List StructCode := [.H]

/-- Number of bytes in a header. -/
def headerLength : Nat := 8

/-- Number of bytes in a checksum. -/
def checksumLength : Nat := 2

/-- len() of a Python value: defined for bytes, a TypeError for ints. -/
def pyLen : Val → Option Nat
  | .vbytes bs => some bs.length
  | .vint _ => none

/-- PingMessage.update_payload_length: the static schema length, plus, for
dynamic messages, len() of the last payload attribute. Raises KeyError for
an unregistered id, AttributeError when the last attribute was never set,
TypeError when len() is applied to an int. -/
def update_payload_length (m : PingMessage) : Except PyErr Nat :=
  match payload_dict m.message_id with
  | none => .error .keyError
  | some sch =>
    if isDynamic m.message_id then
      match m.payload_attrs.bind (fun vals => vals.get? (sch.field_names.length - 1)) with
      | none => .error .attributeError
      | some v =>
        match pyLen v with
        | none => .error .typeError
        | some n => .ok (sch.payload_length + n)
    else .ok sch.payload_length

/-- PingMessage.get_payload_format, as a function of the message id and the
current payload_length. For dynamic messages whose variable portion
(payload_length minus the static schema length) is ≤ 0 the whole format
collapses to the empty string; otherwise "Ns" is appended to the static
format. none models the KeyError raised for an unregistered id. -/
def get_payload_format (msg_id pl : Nat) : Option (List StructCode) :=
  match payload_dict msg_id with
  | none => none
  | some sch =>
    if isDynamic msg_id then
      if (pl : Int) - (sch.payload_length : Int) ≤ 0 then some []
      else some (sch.format ++ [.s (pl - sch.payload_length)])
    else some sch.format

/-- The ordered header values packed by pack_msg_data, honouring the
request_id override of message_id. -/
def headerVals (m : PingMessage) (pl : Nat) : List Val :=
  [.vint m.start_1, .vint m.start_2, .vint pl,
   .vint (m.request_id.getD m.message_id),
   .vint m.src_device_id, .vint m.dst_device_id]

/-- The ordered payload values read off the message's attributes by
pack_msg_data: one value per schema field name; missing attributes raise
AttributeError. Extra attributes beyond the schema's field names are
ignored (Python only getattr's the listed names). -/
def packAttrVals (m : PingMessage) (sch : SchemaEntry) : Except PyErr (List Val) :=
  match m.payload_attrs with
  | some vals =>
      if sch.field_names.length ≤ vals.length then .ok (vals.take sch.field_names.length)
      else .error .attributeError
  | none =>
      if sch.field_names.length = 0 then .ok [] else .error .attributeError

/-- PingMessage.pack_msg_data: recompute payload_length, pack header plus
payload with one concatenated format string, then compute the checksum over
bytes [0, headerLength + payload_length) and append it packed as "H".
Returns the wire bytes; any struct.pack failure (wrong value count,
out-of-range value — including a checksum ≥ 65536) raises struct.error. -/
def pack_msg_data (m : PingMessage) : Except PyErr (List Nat) :=
  match update_payload_length m with
  | .error e => .error e
  | .ok pl =>
    match payload_dict m.message_id, get_payload_format m.message_id pl with
    | some sch, some pfmt =>
      match packAttrVals m sch with
      | .error e => .error e
      | .ok pvals =>
        match structPack (header_format ++ pfmt) (headerVals m pl ++ pvals) with
        | none => .error .structError
        | some body =>
          match structPack checksum_format
              [.vint ((body.take (headerLength + pl)).sum)] with
          | none => .error .structError
          | some ckBytes => .ok (body ++ ckBytes)
    | _, _ => .error .keyError

/-- PingMessage.unpack_msg_data: slice out and unpack the header, then (when
the decoded payload_length is positive) attempt the payload unpack — a
failing payload unpack is caught and swallowed, leaving the payload
attributes unpopulated, except that for an unregistered message id the
KeyError from get_payload_format escapes (the diagnostic print inside the
except clause calls get_payload_format again) — and finally unpack the two
checksum bytes at offset headerLength + payload_length. Python slices clamp
at the end of the buffer, so a short buffer surfaces as a struct.error from
the header or checksum unpack. -/
def unpack_msg_data (m : PingMessage) (msg_data : List Nat) : Except PyErr PingMessage :=
  match structUnpack header_format (msg_data.take headerLength) with
  | none => .error .structError
  | some hvals =>
    match hvals with
    | [.vint s1, .vint s2, .vint pl, .vint mid, .vint src, .vint dst] =>
      let payload : Except PyErr (Option (List Val)) :=
        if 0 < pl then
          match get_payload_format mid pl with
          | none => .error .keyError
          | some pfmt =>
            match structUnpack pfmt ((msg_data.drop headerLength).take pl) with
            | none => .ok m.payload_attrs
            | some vals => .ok (some vals)
        else .ok m.payload_attrs
      match payload with
      | .error e => .error e
      | .ok pattrs =>
        match structUnpack checksum_format
            ((msg_data.drop (headerLength + pl)).take checksumLength) with
        | none => .error .structError
        | some ckvals =>
          match ckvals with
          | [.vint ck] =>
            .ok { m with start_1 := s1, start_2 := s2, payload_length := pl,
                         message_id := mid, src_device_id := src,
                         dst_device_id := dst, checksum := ck,
                         msg_data := msg_data, payload_attrs := pattrs }
          | _ => .error .structError
    | _ => .error .structError

/-- The object state produced by the start of PingMessage.__init__ for the
default msg_id = 0 before any buffer is unpacked. -/
def initMessage : PingMessage :=
  { message_id := 0, request_id := none, payload_length := 0,
    dst_device_id := 0, src_device_id := 0, checksum := 0,
    msg_data := [], payload_attrs := none }

/-- PingMessage(msg_data=buf): construct a message by decoding a raw
buffer. After unpack_msg_data, the constructor indexes payload_dict with
the decoded message id to fetch the schema name, which raises KeyError for
an unregistered id. -/
def decode (buf : List Nat) : Except PyErr PingMessage :=
  match unpack_msg_data initMessage buf with
  | .error e => .error e
  | .ok m =>
    match payload_dict m.message_id with
    | none => .error .keyError
    | some _ => .ok m

/-- PingMessage.calculate_checksum: the plain sum of the bytes of msg_data
up to headerLength + payload_length; note there is no reduction modulo
65536 in the source. -/
def calculate_checksum (m : PingMessage) : Nat :=
  (m.msg_data.take (headerLength + m.payload_length)).sum

/-- PingMessage.verify_checksum: the stored checksum attribute equals the
recomputed sum. -/
def verify_checksum (m : PingMessage) : Bool :=
  m.checksum == calculate_checksum m

/-- Modelled from the spec: the wire checksum as specified in sections 4.2
and 6 of the specification — the unsigned sum of all bytes preceding the
checksum field, truncated to 16 bits (modulo 65536). The source's
calculate_checksum omits the truncation; this definition exists to compare
the two. -/
def spec_wire_checksum (bs : List Nat) : Nat := bs.sum % 65536

/-- Parser state machine constants (class attributes of PingParser). -/
def NEW_MESSAGE : Nat := 0

def WAIT_START : Nat := 1

def WAIT_HEADER : Nat := 2

def WAIT_LENGTH_L : Nat := 3

def WAIT_LENGTH_H : Nat := 4

def WAIT_MSG_ID_L : Nat := 5

def WAIT_MSG_ID_H : Nat := 6

def WAIT_SRC_ID : Nat := 7

def WAIT_DST_ID : Nat := 8

def WAIT_PAYLOAD : Nat := 9

def WAIT_CHECKSUM_L : Nat := 10

def WAIT_CHECKSUM_H : Nat := 11

/-- The PingParser object: accumulation buffer, state, the running payload
length and message id accumulators, the cumulative error and success
counters, and the most recently decoded message. In every state reachable
from initParser the payload_length accumulator is ≥ 1 whenever the state is
WAIT_PAYLOAD, so the truncated Nat decrement below coincides with Python's
integer decrement on all reachable states. -/
structure PingParser where
  buf : List Nat := []
  state : Nat := WAIT_START
  payload_length : Nat := 0
  message_id : Nat := 0
  errors : Nat := 0
  parsed : Nat := 0
  rx_msg : Option PingMessage := none
deriving DecidableEq, Repr

/-- PingParser.__init__. -/
def initParser : PingParser :=
  { buf := [], state := WAIT_START, payload_length := 0, message_id := 0,
    errors := 0, parsed := 0, rx_msg := none }

/-- PingParser.parse_byte: feed one byte, returning the new parse state (or
NEW_MESSAGE when the byte completed a checksum-verified message) together
with the mutated parser. When the terminal decode raises (KeyError for an
unregistered message id), the exception escapes parse_byte; the buffer
mutation made before the decode persists on the object, and rx_msg, the
state and the counters are left unchanged — modelled by returning the
partially mutated parser alongside the error. -/
def parse_byte (p : PingParser) (msg_byte : Nat) :
    Except (PyErr × PingParser) (Nat × PingParser) :=
  if p.state = WAIT_START then
    let p := { p with buf := [] }
    if msg_byte = 66 then
      let p := { p with buf := p.buf ++ [msg_byte], state := p.state + 1 }
      .ok (p.state, p)
    else .ok (p.state, p)
  else if p.state = WAIT_HEADER then
    if msg_byte = 82 then
      let p := { p with buf := p.buf ++ [msg_byte], state := p.state + 1 }
      .ok (p.state, p)
    else
      let p := { p with state := WAIT_START }
      .ok (p.state, p)
  else if p.state = WAIT_LENGTH_L then
    let p := { p with payload_length := msg_byte,
                      buf := p.buf ++ [msg_byte], state := p.state + 1 }
    .ok (p.state, p)
  else if p.state = WAIT_LENGTH_H then
    let p := { p with payload_length := (msg_byte <<< 8) ||| p.payload_length,
                      buf := p.buf ++ [msg_byte], state := p.state + 1 }
    .ok (p.state, p)
  else if p.state = WAIT_MSG_ID_L then
    let p := { p with message_id := msg_byte,
                      buf := p.buf ++ [msg_byte], state := p.state + 1 }
    .ok (p.state, p)
  else if p.state = WAIT_MSG_ID_H then
    let p := { p with message_id := (msg_byte <<< 8) ||| p.message_id,
                      buf := p.buf ++ [msg_byte], state := p.state + 1 }
    .ok (p.state, p)
  else if p.state = WAIT_SRC_ID then
    let p := { p with buf := p.buf ++ [msg_byte], state := p.state + 1 }
    .ok (p.state, p)
  else if p.state = WAIT_DST_ID then
    let p := { p with buf := p.buf ++ [msg_byte], state := p.state + 1 }
    let p := if p.payload_length = 0 then { p with state := p.state + 1 } else p
    .ok (p.state, p)
  else if p.state = WAIT_PAYLOAD then
    let p := { p with buf := p.buf ++ [msg_byte],
                      payload_length := p.payload_length - 1 }
    let p := if p.payload_length = 0 then { p with state := p.state + 1 } else p
    .ok (p.state, p)
  else if p.state = WAIT_CHECKSUM_L then
    let p := { p with buf := p.buf ++ [msg_byte], state := p.state + 1 }
    .ok (p.state, p)
  else if p.state = WAIT_CHECKSUM_H then
    let p := { p with buf := p.buf ++ [msg_byte] }
    match decode p.buf with
    | .error e => .error (e, p)
    | .ok rx =>
      let p := { p with rx_msg := some rx, state := WAIT_START,
                        payload_length := 0, message_id := 0 }
      if verify_checksum rx then
        .ok (NEW_MESSAGE, { p with parsed := p.parsed + 1 })
      else
        .ok (p.state, { p with errors := p.errors + 1 })
  else .ok (p.state, p)

/-- Feed a list of bytes one at a time; stops at the first byte whose
parse_byte call raises, reporting the parser state seen by that call and
the offending byte. -/
def feedAll (p : PingParser) : List Nat → Except (PingParser × Nat) PingParser
  | [] => .ok p
  | b :: rest =>
    match parse_byte p b with
    | .ok (_, p') => feedAll p' rest
    | .error _ => .error (p, b)

/-- The list of message ids registered in payload_dict. -/
def registered_ids : List Nat :=
  [1, 3, 1400, 1401, 1201, 1212, 1211, 1200, 1207, 1210, 1100, 1205, 2,
   1214, 1215, 1206, 1213, 1300, 5, 1208, 1204, 1000, 1005, 1003, 1006,
   1004, 1001, 1002, 1203, 0, 1202]

/-- Whether a format code is one of the fixed-width integer codes (every
schema's static format uses only these; the "Ns" code is only ever appended
at runtime for the dynamic trailing field). -/
def staticCode : StructCode → Bool
  | .s _ => false
  | _ => true

/-- A value is exactly sized for a code when, for a byte-string code "Ns",
the bytes have length exactly n (so packing performs no padding or
truncation); integer codes carry no size constraint. -/
def sizedVal : StructCode → Val → Prop
  | .s n, .vbytes bs => bs.length = n
  | _, _ => True

/-- Invariant of every parser state reachable from initParser: the buffer
holds genuine bytes and, per state, the buffer shape and the running
payload_length accumulator agree with the payload length declared by bytes
2 and 3 of the buffer. -/
def Inv (p : PingParser) : Prop :=
  (∀ b ∈ p.buf, b < 256) ∧
  (p.state = WAIT_START ∨
   (p.state = WAIT_HEADER ∧ p.buf.length = 1) ∨
   (p.state = WAIT_LENGTH_L ∧ p.buf.length = 2) ∨
   (p.state = WAIT_LENGTH_H ∧ ∃ b0 b1 b2,
     p.buf = [b0, b1, b2] ∧ p.payload_length = b2) ∨
   (p.state = WAIT_MSG_ID_L ∧ ∃ b0 b1 b2 b3,
     p.buf = [b0, b1, b2, b3] ∧ p.payload_length = b2 + 256 * b3) ∨
   (p.state = WAIT_MSG_ID_H ∧ ∃ b0 b1 b2 b3 b4,
     p.buf = [b0, b1, b2, b3, b4] ∧ p.payload_length = b2 + 256 * b3) ∨
   (p.state = WAIT_SRC_ID ∧ ∃ b0 b1 b2 b3 b4 b5,
     p.buf = [b0, b1, b2, b3, b4, b5] ∧ p.payload_length = b2 + 256 * b3) ∨
   (p.state = WAIT_DST_ID ∧ ∃ b0 b1 b2 b3 b4 b5 b6,
     p.buf = [b0, b1, b2, b3, b4, b5, b6] ∧ p.payload_length = b2 + 256 * b3) ∨
   (p.state = WAIT_PAYLOAD ∧ ∃ b0 b1 b2 b3 b4 b5 b6 b7 part,
     p.buf = [b0, b1, b2, b3, b4, b5, b6, b7] ++ part ∧
     1 ≤ p.payload_length ∧
     part.length + p.payload_length = b2 + 256 * b3) ∨
   (p.state = WAIT_CHECKSUM_L ∧ ∃ b0 b1 b2 b3 b4 b5 b6 b7 part,
     p.buf = [b0, b1, b2, b3, b4, b5, b6, b7] ++ part ∧
     part.length = b2 + 256 * b3) ∨
   (p.state = WAIT_CHECKSUM_H ∧ ∃ b0 b1 b2 b3 b4 b5 b6 b7 part,
     p.buf = [b0, b1, b2, b3, b4, b5, b6, b7] ++ part ∧
     part.length = (b2 + 256 * b3) + 1))

/-- The voltage_5 message decoded from the valid hand-written test frame
42 52 02 00 B2 04 05 06 01 01 59 01. -/
def goodVoltageMsg : PingMessage :=
  ⟨66, 82, 1202, none, 2, 6, 5, 345,
   [66, 82, 2, 0, 178, 4, 5, 6, 1, 1, 89, 1], some [.vint 257]⟩

/-- The message decoded from the same frame with its checksum low byte
corrupted from 0x59 to 0x5A: the stored checksum 346 does not match the
byte sum 345. -/
def badVoltageMsg : PingMessage :=
  ⟨66, 82, 1202, none, 2, 6, 5, 346,
   [66, 82, 2, 0, 178, 4, 5, 6, 1, 1, 90, 1], some [.vint 257]⟩

end Ping

namespace Ping

/-! Struct-level lemmas: sizes, arities and the pack/unpack round trip. -/

theorem lor_byte (hi lo : Nat) (h : lo < 256) : (hi <<< 8) ||| lo = 256 * hi + lo := by
  have h2 : lo < 2 ^ 8 := by omega
  rw [Nat.shiftLeft_eq, Nat.mul_comm hi (2 ^ 8), ← Nat.mul_add_lt_is_or h2 hi]

theorem packCode_length {c : StructCode} {v : Val} {b : List Nat}
    (h : packCode c v = some b) : b.length = c.size := by
  cases c <;> cases v <;> simp [packCode] at h
  case B.vint n => obtain ⟨-, rfl⟩ := h; rfl
  case H.vint n => obtain ⟨-, rfl⟩ := h; rfl
  case I.vint n => obtain ⟨-, rfl⟩ := h; rfl
  case s.vbytes n bs =>
    subst h
    simp [StructCode.size]
    omega

theorem structPack_length {fmt : List StructCode} {vals : List Val} {b : List Nat}
    (h : structPack fmt vals = some b) : b.length = fmtSize fmt := by
  induction fmt generalizing vals b with
  | nil => cases vals <;> simp_all [structPack, fmtSize]
  | cons c fmt ih =>
    cases vals with
    | nil => simp [structPack] at h
    | cons v vals =>
      simp only [structPack] at h
      cases hc : packCode c v with
      | none => simp [hc] at h
      | some b1 =>
        cases hr : structPack fmt vals with
        | none => simp [hc, hr] at h
        | some b2 =>
          simp only [hc, hr, Option.some.injEq] at h
          subst h
          simp [fmtSize, packCode_length hc, ih hr, List.map_cons, List.sum_cons]

theorem structPack_arity {fmt : List StructCode} {vals : List Val} {b : List Nat}
    (h : structPack fmt vals = some b) : vals.length = fmt.length := by
  induction fmt generalizing vals b with
  | nil => cases vals <;> simp_all [structPack]
  | cons c fmt ih =>
    cases vals with
    | nil => simp [structPack] at h
    | cons v vals =>
      simp only [structPack] at h
      cases hc : packCode c v with
      | none => simp [hc] at h
      | some b1 =>
        cases hr : structPack fmt vals with
        | none => simp [hc, hr] at h
        | some b2 => simpa using ih hr

theorem structPack_append_split {f1 f2 : List StructCode} {v1 v2 : List Val}
    {b : List Nat} (harity : v1.length = f1.length)
    (h : structPack (f1 ++ f2) (v1 ++ v2) = some b) :
    ∃ b1 b2, structPack f1 v1 = some b1 ∧ structPack f2 v2 = some b2 ∧ b = b1 ++ b2 := by
  induction f1 generalizing v1 b with
  | nil =>
    cases v1 with
    | nil => exact ⟨[], b, rfl, by simpa using h, by simp⟩
    | cons _ _ => simp at harity
  | cons c f1 ih =>
    cases v1 with
    | nil => simp at harity
    | cons v v1 =>
      simp only [List.cons_append, structPack, List.append_eq] at h
      cases hc : packCode c v with
      | none => simp [hc] at h
      | some bc =>
        cases hr : structPack (f1 ++ f2) (v1 ++ v2) with
        | none => simp [hc, hr] at h
        | some br =>
          simp only [hc, hr, Option.some.injEq] at h
          obtain ⟨b1, b2, h1, h2, rfl⟩ := ih (by simpa using harity) hr
          exact ⟨bc ++ b1, b2, by simp [structPack, hc, h1], h2, by simp [← h]⟩

theorem readLE_one (a : Nat) : readLE [a] = a := by simp [readLE]

theorem readLE_two (a b : Nat) : readLE [a, b] = a + 256 * b := by simp [readLE]

theorem unpackCode_packCode {c : StructCode} {v : Val} {b : List Nat}
    (h : packCode c v = some b) (hs : sizedVal c v) : unpackCode c b = v := by
  cases c <;> cases v <;> simp [packCode] at h
  case B.vint n =>
    obtain ⟨h1, rfl⟩ := h
    simp [unpackCode, readLE]
  case H.vint n =>
    obtain ⟨h1, rfl⟩ := h
    simp only [unpackCode, readLE_two, Val.vint.injEq]
    omega
  case I.vint n =>
    obtain ⟨h1, rfl⟩ := h
    simp only [unpackCode, readLE, List.foldr]
    congr 1
    omega
  case s.vbytes n bs =>
    subst h
    simp only [sizedVal] at hs
    simp [unpackCode, hs, List.take_length]

theorem structUnpack_structPack {fmt : List StructCode} {vals : List Val}
    {b : List Nat} (h : structPack fmt vals = some b)
    (hs : List.Forall₂ sizedVal fmt vals) : structUnpack fmt b = some vals := by
  induction fmt generalizing vals b with
  | nil => cases vals <;> simp_all [structPack, structUnpack]
  | cons c fmt ih =>
    cases vals with
    | nil => simp [structPack] at h
    | cons v vals =>
      simp only [structPack] at h
      cases hc : packCode c v with
      | none => simp [hc] at h
      | some b1 =>
        cases hr : structPack fmt vals with
        | none => simp [hc, hr] at h
        | some b2 =>
          simp only [hc, hr, Option.some.injEq] at h
          subst h
          rcases hs with _ | ⟨hsv, hstail⟩
          have hlen : b1.length = c.size := packCode_length hc
          simp only [structUnpack, List.length_append, hlen]
          rw [if_pos (by omega)]
          rw [show (b1 ++ b2).drop c.size = b2 by
                rw [← hlen]; exact List.drop_left b1 b2,
              show (b1 ++ b2).take c.size = b1 by
                rw [← hlen]; exact List.take_left b1 b2]
          rw [ih hr hstail, unpackCode_packCode hc hsv]
          rfl

theorem fmtSize_nil : fmtSize [] = 0 := rfl

theorem fmtSize_cons (c : StructCode) (fmt : List StructCode) :
    fmtSize (c :: fmt) = c.size + fmtSize fmt := by simp [fmtSize]

theorem fmtSize_append (f1 f2 : List StructCode) :
    fmtSize (f1 ++ f2) = fmtSize f1 + fmtSize f2 := by simp [fmtSize]

theorem structUnpack_isSome_iff (fmt : List StructCode) (bs : List Nat) :
    (structUnpack fmt bs).isSome ↔ bs.length = fmtSize fmt := by
  induction fmt generalizing bs with
  | nil =>
    rw [fmtSize_nil]
    simp only [structUnpack]
    constructor
    · intro h
      by_cases hb : bs = []
      · simp [hb]
      · simp [hb] at h
    · intro h
      have : bs = [] := List.eq_nil_of_length_eq_zero h
      simp [this]
  | cons c fmt ih =>
    rw [fmtSize_cons]
    simp only [structUnpack]
    by_cases hle : c.size ≤ bs.length
    · rw [if_pos hle]
      have hih := ih (bs.drop c.size)
      rw [List.length_drop] at hih
      constructor
      · intro h
        cases hu : structUnpack fmt (bs.drop c.size) with
        | none => simp [hu] at h
        | some v =>
          have := hih.mp (by simp [hu])
          omega
      · intro h
        have hs : (structUnpack fmt (bs.drop c.size)).isSome := hih.mpr (by omega)
        cases hu : structUnpack fmt (bs.drop c.size) with
        | none => simp [hu] at hs
        | some v => simp [hu]
    · rw [if_neg hle]
      simp only [Option.isSome_none, Bool.false_eq_true, false_iff]
      intro h
      omega

theorem structUnpack_append {f1 f2 : List StructCode} {b1 b2 : List Nat}
    (hlen : b1.length = fmtSize f1) :
    structUnpack (f1 ++ f2) (b1 ++ b2) =
      match structUnpack f1 b1, structUnpack f2 b2 with
      | some v1, some v2 => some (v1 ++ v2)
      | _, _ => none := by
  induction f1 generalizing b1 with
  | nil =>
    rw [fmtSize_nil] at hlen
    have : b1 = [] := List.eq_nil_of_length_eq_zero hlen
    subst this
    simp only [List.nil_append, structUnpack, if_pos rfl]
    cases structUnpack f2 b2 <;> rfl
  | cons c f1 ih =>
    rw [fmtSize_cons] at hlen
    simp only [List.cons_append, structUnpack, List.length_append, List.append_eq]
    have hcs : c.size ≤ b1.length := by omega
    rw [if_pos (by omega), if_pos hcs]
    rw [List.drop_append_of_le_length hcs, List.take_append_of_le_length hcs]
    rw [ih (by rw [List.length_drop]; omega)]
    cases h1 : structUnpack f1 (b1.drop c.size) <;>
      cases h2 : structUnpack f2 b2 <;> rfl

/-! Facts about the schema registry, proved by enumerating its 31 entries. -/

theorem payload_dict_none {mid : Nat} (hm : mid ∉ registered_ids) :
    payload_dict mid = none := by
  have hni : ∀ k, k ∈ registered_ids → ¬ mid = k := fun k hk heq => hm (heq ▸ hk)
  unfold payload_dict
  rw [if_neg (hni 1 (by decide)),
      if_neg (hni 3 (by decide)),
      if_neg (hni 1400 (by decide)),
      if_neg (hni 1401 (by decide)),
      if_neg (hni 1201 (by decide)),
      if_neg (hni 1212 (by decide)),
      if_neg (hni 1211 (by decide)),
      if_neg (hni 1200 (by decide)),
      if_neg (hni 1207 (by decide)),
      if_neg (hni 1210 (by decide)),
      if_neg (hni 1100 (by decide)),
      if_neg (hni 1205 (by decide)),
      if_neg (hni 2 (by decide)),
      if_neg (hni 1214 (by decide)),
      if_neg (hni 1215 (by decide)),
      if_neg (hni 1206 (by decide)),
      if_neg (hni 1213 (by decide)),
      if_neg (hni 1300 (by decide)),
      if_neg (hni 5 (by decide)),
      if_neg (hni 1208 (by decide)),
      if_neg (hni 1204 (by decide)),
      if_neg (hni 1000 (by decide)),
      if_neg (hni 1005 (by decide)),
      if_neg (hni 1003 (by decide)),
      if_neg (hni 1006 (by decide)),
      if_neg (hni 1004 (by decide)),
      if_neg (hni 1001 (by decide)),
      if_neg (hni 1002 (by decide)),
      if_neg (hni 1203 (by decide)),
      if_neg (hni 0 (by decide)),
      if_neg (hni 1202 (by decide))]

theorem payload_dict_mem {mid : Nat} {sch : SchemaEntry}
    (h : payload_dict mid = some sch) : mid ∈ registered_ids := by
  by_contra hm
  rw [payload_dict_none hm] at h
  exact absurd h (by simp)

theorem table_facts_decide : registered_ids.all (fun mid =>
    match payload_dict mid with
    | none => false
    | some sch =>
      decide (mid < 65536) && (fmtSize sch.format == sch.payload_length) &&
      decide (sch.payload_length < 65536) && sch.format.all staticCode &&
      (sch.field_names.length == sch.format.length + (if isDynamic mid then 1 else 0))) = true := by
  decide

theorem payload_dict_facts {mid : Nat} {sch : SchemaEntry}
    (h : payload_dict mid = some sch) :
    mid < 65536 ∧ fmtSize sch.format = sch.payload_length ∧
    sch.payload_length < 65536 ∧ (∀ c ∈ sch.format, staticCode c = true) ∧
    sch.field_names.length = sch.format.length + (if isDynamic mid then 1 else 0) := by
  have hmem := payload_dict_mem h
  have hall := table_facts_decide
  rw [List.all_eq_true] at hall
  have hthis := hall mid hmem
  rw [h] at hthis
  simp only [Bool.and_eq_true, decide_eq_true_eq, beq_iff_eq, List.all_eq_true] at hthis
  tauto

/-! Evaluation lemmas for decode on a buffer presented as eight header
bytes, a payload of the declared length, and two checksum bytes. -/

theorem take_eight {α : Type} (b0 b1 b2 b3 b4 b5 b6 b7 : α) (rest : List α) :
    (b0::b1::b2::b3::b4::b5::b6::b7::rest).take 8 = [b0,b1,b2,b3,b4,b5,b6,b7] := rfl

theorem drop_eight {α : Type} (b0 b1 b2 b3 b4 b5 b6 b7 : α) (rest : List α) :
    (b0::b1::b2::b3::b4::b5::b6::b7::rest).drop 8 = rest := rfl

theorem unpack_header (b0 b1 b2 b3 b4 b5 b6 b7 : Nat) :
    structUnpack header_format [b0,b1,b2,b3,b4,b5,b6,b7] =
      some [.vint b0, .vint b1, .vint (b2 + 256 * b3), .vint (b4 + 256 * b5),
            .vint b6, .vint b7] := by
  simp [structUnpack, header_format, unpackCode, readLE, StructCode.size]

theorem unpack_checksum (a b : Nat) :
    structUnpack checksum_format [a, b] = some [.vint (a + 256 * b)] := by
  simp [structUnpack, checksum_format, unpackCode, readLE, StructCode.size]

theorem decode_ok {b0 b1 b2 b3 b4 b5 b6 b7 cLo cHi : Nat} {payload : List Nat}
    {sch : SchemaEntry} {pfmt : List StructCode}
    (hsch : payload_dict (b4 + 256 * b5) = some sch)
    (hfmt : get_payload_format (b4 + 256 * b5) (b2 + 256 * b3) = some pfmt)
    (hlen : payload.length = b2 + 256 * b3) :
    decode (b0::b1::b2::b3::b4::b5::b6::b7::(payload ++ [cLo, cHi])) =
      .ok { start_1 := b0, start_2 := b1, message_id := b4 + 256 * b5,
            request_id := none, payload_length := b2 + 256 * b3,
            dst_device_id := b7, src_device_id := b6,
            checksum := cLo + 256 * cHi,
            msg_data := b0::b1::b2::b3::b4::b5::b6::b7::(payload ++ [cLo, cHi]),
            payload_attrs :=
              if 0 < b2 + 256 * b3 then structUnpack pfmt payload else none } := by
  have hdrop : (b0::b1::b2::b3::b4::b5::b6::b7::(payload ++ [cLo, cHi])).drop
      (headerLength + (b2 + 256 * b3)) = [cLo, cHi] := by
    rw [show headerLength = 8 from rfl, Nat.add_comm]
    show List.drop (b2 + 256 * b3) (payload ++ [cLo, cHi]) = [cLo, cHi]
    rw [← hlen, List.drop_left]
  unfold decode unpack_msg_data
  rw [show (b0::b1::b2::b3::b4::b5::b6::b7::(payload ++ [cLo, cHi])).take headerLength
        = [b0,b1,b2,b3,b4,b5,b6,b7] from rfl]
  rw [unpack_header]
  simp only
  rw [hdrop]
  rw [show ([cLo, cHi]).take checksumLength = [cLo, cHi] from rfl]
  rw [unpack_checksum]
  by_cases hpl : 0 < b2 + 256 * b3
  · rw [if_pos hpl]
    rw [hfmt]
    rw [show (b0::b1::b2::b3::b4::b5::b6::b7::(payload ++ [cLo, cHi])).drop headerLength
          = payload ++ [cLo, cHi] from rfl]
    rw [← hlen, List.take_left]
    cases hu : structUnpack pfmt payload <;>
      simp [hu, initMessage, hsch, if_pos hpl, hlen] <;> omega
  · rw [if_neg hpl]
    simp [initMessage, hsch, if_neg hpl]
    rw [if_neg (show ¬(0 < b2 ∨ 0 < b3) by omega)]

theorem decode_unknown {b0 b1 b2 b3 b4 b5 b6 b7 cLo cHi : Nat} {payload : List Nat}
    (hsch : payload_dict (b4 + 256 * b5) = none)
    (hlen : payload.length = b2 + 256 * b3) :
    decode (b0::b1::b2::b3::b4::b5::b6::b7::(payload ++ [cLo, cHi])) =
      .error .keyError := by
  have hdrop : (b0::b1::b2::b3::b4::b5::b6::b7::(payload ++ [cLo, cHi])).drop
      (headerLength + (b2 + 256 * b3)) = [cLo, cHi] := by
    rw [show headerLength = 8 from rfl, Nat.add_comm]
    show List.drop (b2 + 256 * b3) (payload ++ [cLo, cHi]) = [cLo, cHi]
    rw [← hlen, List.drop_left]
  unfold decode unpack_msg_data
  rw [show (b0::b1::b2::b3::b4::b5::b6::b7::(payload ++ [cLo, cHi])).take headerLength
        = [b0,b1,b2,b3,b4,b5,b6,b7] from rfl]
  rw [unpack_header]
  simp only
  rw [hdrop]
  rw [show ([cLo, cHi]).take checksumLength = [cLo, cHi] from rfl]
  rw [unpack_checksum]
  by_cases hpl : 0 < b2 + 256 * b3
  · rw [if_pos hpl]
    rw [show get_payload_format (b4 + 256 * b5) (b2 + 256 * b3) = none by
          simp [get_payload_format, hsch]]
  · rw [if_neg hpl]
    simp [hsch]

theorem get_payload_format_isSome {mid : Nat} {sch : SchemaEntry} (pl : Nat)
    (hsch : payload_dict mid = some sch) :
    ∃ pfmt, get_payload_format mid pl = some pfmt := by
  unfold get_payload_format
  rw [hsch]
  dsimp only
  split_ifs <;> exact ⟨_, rfl⟩

theorem unpack_checksum_short {bs : List Nat} (h : bs.length < 2) :
    structUnpack checksum_format bs = none := by
  rw [← Option.not_isSome_iff_eq_none, structUnpack_isSome_iff]
  intro hc
  rw [show fmtSize checksum_format = 2 from rfl] at hc
  omega

/-! Claim theorems: concrete scenarios and decode error behaviour. -/

/-- C9: decoding the 12-byte buffer 42 52 02 00 B2 04 05 06 01 01 59 01
yields a message with message id 1202, payload field value 257, stored
checksum 0x0159 = 345, and verify_checksum true. -/
theorem C9_concrete_voltage5 :
    decode [66, 82, 2, 0, 178, 4, 5, 6, 1, 1, 89, 1] =
      .ok { start_1 := 66, start_2 := 82, message_id := 1202,
            request_id := none, payload_length := 2, dst_device_id := 6,
            src_device_id := 5, checksum := 345,
            msg_data := [66, 82, 2, 0, 178, 4, 5, 6, 1, 1, 89, 1],
            payload_attrs := some [.vint 257] } ∧
    (decode [66, 82, 2, 0, 178, 4, 5, 6, 1, 1, 89, 1]).map verify_checksum =
      .ok true :=
  ⟨rfl, rfl⟩

/-- C4 counterexample: a well-formed buffer whose message id 0xFFFF has no
schema entry makes decode raise a KeyError — no message (and hence no raw
header info) is returned to the caller, contradicting the claim that decode
fails with a recoverable UnknownMessageType result. -/
theorem C4_counterexample :
    decode [66, 82, 0, 0, 255, 255, 5, 6, 0, 0] = .error .keyError := rfl

/-- C4 amended: for every buffer carrying an unregistered message id (with
enough bytes present for the declared payload and checksum), decode raises
KeyError — the lookup failure escapes as an exception instead of returning
a message with the raw header info. -/
theorem C4_unknown_id_raises {b0 b1 b2 b3 b4 b5 b6 b7 cLo cHi : Nat}
    {payload : List Nat}
    (hsch : payload_dict (b4 + 256 * b5) = none)
    (hlen : payload.length = b2 + 256 * b3) :
    decode (b0::b1::b2::b3::b4::b5::b6::b7::(payload ++ [cLo, cHi])) =
      .error .keyError :=
  decode_unknown hsch hlen

/-- Witness for C4: message id 60000 is unregistered; decoding a frame that
declares it raises KeyError. -/
theorem C4_unknown_id_raises_witness :
    payload_dict (96 + 256 * 234) = none ∧ ([(9 : Nat)]).length = 1 + 256 * 0 ∧
    decode [66, 82, 1, 0, 96, 234, 5, 6, 9, 7, 8] = .error .keyError :=
  ⟨by decide, by decide,
    @C4_unknown_id_raises 66 82 1 0 96 234 5 6 7 8 [9] (by decide) (by decide)⟩

/-- C6 counterexample: a nack frame (dynamic schema, static length 2) with
declared payload_length 2, i.e. zero extra bytes, decodes without the fixed
field nacked_id being populated and without the trailing field being set to
an empty byte sequence: the whole payload is left undecoded. -/
theorem C6_counterexample :
    decode [66, 82, 2, 0, 2, 0, 5, 6, 52, 18, 0, 0] =
      .ok { start_1 := 66, start_2 := 82, message_id := 2,
            request_id := none, payload_length := 2, dst_device_id := 6,
            src_device_id := 5, checksum := 0,
            msg_data := [66, 82, 2, 0, 2, 0, 5, 6, 52, 18, 0, 0],
            payload_attrs := none } := rfl

/-- C6 amended: for every dynamic-schema message decoded from a buffer
whose declared payload_length does not exceed the schema's static payload
length, decode succeeds without raising, but leaves every payload field
(fixed fields included) unpopulated: get_payload_format collapses to the
empty format, so the payload unpack fails and is silently swallowed. -/
theorem C6_zero_extra_unpopulated {b0 b1 b2 b3 b4 b5 b6 b7 cLo cHi : Nat}
    {payload : List Nat} {sch : SchemaEntry}
    (hsch : payload_dict (b4 + 256 * b5) = some sch)
    (hdyn : isDynamic (b4 + 256 * b5) = true)
    (hle : b2 + 256 * b3 ≤ sch.payload_length)
    (hlen : payload.length = b2 + 256 * b3) :
    decode (b0::b1::b2::b3::b4::b5::b6::b7::(payload ++ [cLo, cHi])) =
      .ok { start_1 := b0, start_2 := b1, message_id := b4 + 256 * b5,
            request_id := none, payload_length := b2 + 256 * b3,
            dst_device_id := b7, src_device_id := b6,
            checksum := cLo + 256 * cHi,
            msg_data := b0::b1::b2::b3::b4::b5::b6::b7::(payload ++ [cLo, cHi]),
            payload_attrs := none } := by
  have hfmt : get_payload_format (b4 + 256 * b5) (b2 + 256 * b3) = some [] := by
    unfold get_payload_format
    rw [hsch]
    simp only [hdyn, if_true]
    rw [if_pos (by omega)]
  have hattrs : (if 0 < b2 + 256 * b3
      then structUnpack ([] : List StructCode) payload else none) = none := by
    by_cases hpl : 0 < b2 + 256 * b3
    · rw [if_pos hpl]
      have hne : payload ≠ [] := by
        intro hnil
        rw [hnil] at hlen
        simp at hlen
        omega
      simp [structUnpack, hne]
    · rw [if_neg hpl]
  rw [decode_ok hsch hfmt hlen, hattrs]

/-- Witness for C6: an ascii_text frame with payload_length 0 decodes
successfully with no payload attributes populated. -/
theorem C6_zero_extra_unpopulated_witness :
    payload_dict (3 + 256 * 0) = some ⟨"ascii_text", [], ["ascii_message"], 0⟩ ∧
    isDynamic (3 + 256 * 0) = true ∧
    decode [66, 82, 0, 0, 3, 0, 5, 6, 162, 0] =
      .ok { start_1 := 66, start_2 := 82, message_id := 3,
            request_id := none, payload_length := 0, dst_device_id := 6,
            src_device_id := 5, checksum := 162,
            msg_data := [66, 82, 0, 0, 3, 0, 5, 6, 162, 0],
            payload_attrs := none } :=
  ⟨by decide, by decide,
    @C6_zero_extra_unpopulated 66 82 0 0 3 0 5 6 162 0 []
      ⟨"ascii_text", [], ["ascii_message"], 0⟩
      (by decide) (by decide) (by decide) (by decide)⟩

/-- C7 counterexample: a voltage_5 frame that declares payload_length 1
(the schema requires 2 bytes) decodes as a success with the payload fields
left unpopulated — a half-populated success, not a PayloadUnpackError
failure. -/
theorem C7_counterexample :
    decode [66, 82, 1, 0, 178, 4, 5, 6, 9, 7, 7] =
      .ok { start_1 := 66, start_2 := 82, message_id := 1202,
            request_id := none, payload_length := 1, dst_device_id := 6,
            src_device_id := 5, checksum := 7 + 256 * 7,
            msg_data := [66, 82, 1, 0, 178, 4, 5, 6, 9, 7, 7],
            payload_attrs := none } := rfl

/-- C7 amended: a buffer shorter than the header raises struct.error from
the header unpack; a buffer whose remainder is shorter than the declared
payload plus checksum raises struct.error from the checksum unpack (there
is no TruncatedBuffer result value); and a payload whose byte count does
not match the schema's fixed-field widths is swallowed — decode returns a
success whose payload fields are unpopulated, not a PayloadUnpackError. -/
theorem C7_truncation_and_mismatch :
    (∀ buf : List Nat, buf.length < 8 → decode buf = .error .structError) ∧
    (∀ b0 b1 b2 b3 b4 b5 b6 b7 : Nat, ∀ rest : List Nat, ∀ sch : SchemaEntry,
      payload_dict (b4 + 256 * b5) = some sch →
      rest.length < (b2 + 256 * b3) + 2 →
      decode (b0::b1::b2::b3::b4::b5::b6::b7::rest) = .error .structError) ∧
    (∀ b0 b1 b2 b3 b4 b5 b6 b7 cLo cHi : Nat, ∀ payload : List Nat,
      ∀ sch : SchemaEntry,
      payload_dict (b4 + 256 * b5) = some sch →
      isDynamic (b4 + 256 * b5) = false →
      b2 + 256 * b3 ≠ fmtSize sch.format →
      payload.length = b2 + 256 * b3 →
      decode (b0::b1::b2::b3::b4::b5::b6::b7::(payload ++ [cLo, cHi])) =
        .ok { start_1 := b0, start_2 := b1, message_id := b4 + 256 * b5,
              request_id := none, payload_length := b2 + 256 * b3,
              dst_device_id := b7, src_device_id := b6,
              checksum := cLo + 256 * cHi,
              msg_data := b0::b1::b2::b3::b4::b5::b6::b7::(payload ++ [cLo, cHi]),
              payload_attrs := none }) := by
  refine ⟨?_, ?_, ?_⟩
  · intro buf hlen
    have hh : structUnpack header_format (buf.take headerLength) = none := by
      rw [← Option.not_isSome_iff_eq_none, structUnpack_isSome_iff]
      rw [show fmtSize header_format = 8 from rfl]
      simp only [List.length_take]
      rw [show headerLength = 8 from rfl]
      omega
    unfold decode unpack_msg_data
    rw [hh]
  · intro b0 b1 b2 b3 b4 b5 b6 b7 rest sch hsch hshort
    have hdrop : (b0::b1::b2::b3::b4::b5::b6::b7::rest).drop
        (headerLength + (b2 + 256 * b3)) = rest.drop (b2 + 256 * b3) := by
      rw [show headerLength = 8 from rfl, Nat.add_comm]
      rfl
    have hck : structUnpack checksum_format
        ((rest.drop (b2 + 256 * b3)).take checksumLength) = none := by
      apply unpack_checksum_short
      simp only [List.length_take, List.length_drop]
      rw [show checksumLength = 2 from rfl]
      omega
    unfold decode unpack_msg_data
    rw [show (b0::b1::b2::b3::b4::b5::b6::b7::rest).take headerLength
          = [b0,b1,b2,b3,b4,b5,b6,b7] from rfl]
    rw [unpack_header]
    simp only
    rw [hdrop, hck]
    by_cases hpl : 0 < b2 + 256 * b3
    · rw [if_pos hpl]
      obtain ⟨pfmt, hfmt⟩ := get_payload_format_isSome (b2 + 256 * b3) hsch
      rw [hfmt]
      cases hu : structUnpack pfmt
          (((b0::b1::b2::b3::b4::b5::b6::b7::rest).drop headerLength).take
            (b2 + 256 * b3)) <;> simp [hu]
    · rw [if_neg hpl]
  · intro b0 b1 b2 b3 b4 b5 b6 b7 cLo cHi payload sch hsch hdyn hne hlen
    have hfmt : get_payload_format (b4 + 256 * b5) (b2 + 256 * b3)
        = some sch.format := by
      unfold get_payload_format
      rw [hsch]
      simp [hdyn]
    have hattrs : (if 0 < b2 + 256 * b3
        then structUnpack sch.format payload else none) = none := by
      by_cases hpl : 0 < b2 + 256 * b3
      · rw [if_pos hpl]
        rw [← Option.not_isSome_iff_eq_none, structUnpack_isSome_iff]
        omega
      · rw [if_neg hpl]
    rw [decode_ok hsch hfmt hlen, hattrs]

/-- Witness for C7: a 3-byte buffer raises struct.error; a voltage_5 frame
cut off after one payload byte raises struct.error; a voltage_5 frame with
declared payload_length 3 instead of 2 decodes as a success with
unpopulated payload fields. -/
theorem C7_truncation_and_mismatch_witness :
    decode [1, 2, 3] = .error .structError ∧
    decode [66, 82, 2, 0, 178, 4, 5, 6, 1] = .error .structError ∧
    decode [66, 82, 3, 0, 178, 4, 5, 6, 9, 9, 9, 7, 8] =
      .ok { start_1 := 66, start_2 := 82, message_id := 1202,
            request_id := none, payload_length := 3, dst_device_id := 6,
            src_device_id := 5, checksum := 7 + 256 * 8,
            msg_data := [66, 82, 3, 0, 178, 4, 5, 6, 9, 9, 9, 7, 8],
            payload_attrs := none } :=
  ⟨C7_truncation_and_mismatch.1 [1, 2, 3] (by decide),
   C7_truncation_and_mismatch.2.1 66 82 2 0 178 4 5 6 [1]
     ⟨"voltage_5", [.H], ["voltage_5"], 2⟩ (by decide) (by decide),
   C7_truncation_and_mismatch.2.2 66 82 3 0 178 4 5 6 7 8 [9, 9, 9]
     ⟨"voltage_5", [.H], ["voltage_5"], 2⟩ (by decide) (by decide)
     (by decide) (by decide)⟩

set_option maxRecDepth 40000 in
set_option maxHeartbeats 1000000 in
/-- C3: the checksum is NOT reduced modulo 65536 by calculate_checksum.
On a profile frame with 255 payload bytes of 0xFF the byte sum is 65963;
the wire checksum field 427 equals the sum modulo 65536 as the spec
prescribes, yet verify_checksum rejects the frame because
calculate_checksum returns the raw, untruncated sum. -/
theorem C3_checksum_not_truncated :
    (decode ([66, 82, 255, 0, 20, 5, 255, 255] ++
        (List.replicate 255 255 ++ [171, 1]))).map
      (fun m => (m.checksum, calculate_checksum m, verify_checksum m)) =
      .ok (427, 65963, false) ∧
    spec_wire_checksum ([66, 82, 255, 0, 20, 5, 255, 255] ++
      List.replicate 255 255) = 427 ∧
    427 = 65963 % 65536 := by
  refine ⟨rfl, by decide, by decide⟩

theorem forall₂_sized_of_static : ∀ {fmt : List StructCode} {vals : List Val},
    (∀ c ∈ fmt, staticCode c = true) → vals.length = fmt.length →
    List.Forall₂ sizedVal fmt vals
  | [], [], _, _ => List.Forall₂.nil
  | c :: fmt, v :: vals, hst, hlen => by
    refine List.Forall₂.cons ?_ (forall₂_sized_of_static (fun d hd => hst d (by simp [hd])) (by simpa using hlen))
    have hc : staticCode c = true := hst c (by simp)
    cases c <;> cases v <;> simp [sizedVal] <;> simp [staticCode] at hc
  | [], _ :: _, _, hlen => by simp at hlen
  | _ :: _, [], _, hlen => by simp at hlen

theorem static_fmt_nil : ∀ {fmt : List StructCode},
    (∀ c ∈ fmt, staticCode c = true) → fmtSize fmt = 0 → fmt = []
  | [], _, _ => rfl
  | c :: fmt, hst, hsz => by
    exfalso
    rw [fmtSize_cons] at hsz
    have hc : staticCode c = true := hst c (by simp)
    cases c <;> simp [StructCode.size] at hsz <;> simp [staticCode] at hc

/-- C1 counterexample: encoding a message whose dynamic trailing field is
empty raises struct.error (the payload format collapses to the empty
string while the values tuple still contains the payload attributes), so
decode(encode(m)) = m fails for empty variable-length trailing fields,
both for a text message and for a message with a fixed field before the
trailing field. -/
theorem C1_counterexample :
    pack_msg_data { message_id := 3, payload_attrs := some [.vbytes []] } =
      .error .structError ∧
    pack_msg_data { message_id := 2,
                    payload_attrs := some [.vint 5, .vbytes []] } =
      .error .structError :=
  ⟨rfl, rfl⟩

/-- C1 amended: for every message over a registered schema whose encoding
succeeds (pack_msg_data raises struct.error on empty dynamic trailing
fields and on checksums at or above 65536, so those assignments are
excluded), decoding the produced bytes yields a message with the same
header fields, the same payload field values, and a checksum equal to the
encoded one, which verifies. -/
theorem C1_roundtrip {m : PingMessage} {out : List Nat} {sch : SchemaEntry}
    {vals : List Val}
    (hsch : payload_dict m.message_id = some sch)
    (hreq : m.request_id = none)
    (hattrs : m.payload_attrs = some vals)
    (hvlen : vals.length = sch.field_names.length)
    (hpack : pack_msg_data m = .ok out) :
    ∃ d, decode out = .ok d ∧
      d.start_1 = m.start_1 ∧ d.start_2 = m.start_2 ∧
      d.message_id = m.message_id ∧
      d.src_device_id = m.src_device_id ∧
      d.dst_device_id = m.dst_device_id ∧
      update_payload_length m = .ok d.payload_length ∧
      d.payload_attrs.getD [] = vals ∧
      d.checksum = calculate_checksum d ∧
      verify_checksum d = true ∧
      d.msg_data = out := by
  obtain ⟨hmidlt, hfmtsz, hpllt, hstatic, hfield⟩ := payload_dict_facts hsch
  unfold pack_msg_data at hpack
  cases hup : update_payload_length m with
  | error e => rw [hup] at hpack; exact absurd hpack (by simp)
  | ok pl =>
  rw [hup] at hpack
  dsimp only at hpack
  obtain ⟨pfmt, hfmt⟩ := get_payload_format_isSome pl hsch
  rw [hsch, hfmt] at hpack
  dsimp only at hpack
  rw [show packAttrVals m sch = .ok vals by
        unfold packAttrVals
        rw [hattrs]
        dsimp only
        rw [if_pos (by omega), ← hvlen, List.take_length]] at hpack
  dsimp only at hpack
  cases hbody : structPack (header_format ++ pfmt) (headerVals m pl ++ vals) with
  | none => rw [hbody] at hpack; exact absurd hpack (by simp)
  | some body =>
  rw [hbody] at hpack
  dsimp only at hpack
  cases hck : structPack checksum_format
      [.vint ((body.take (headerLength + pl)).sum)] with
  | none => rw [hck] at hpack; exact absurd hpack (by simp)
  | some ckb =>
  rw [hck] at hpack
  dsimp only at hpack
  have hout : body ++ ckb = out := by
    simpa using hpack
  -- split the packed body into header bytes and payload bytes
  obtain ⟨hb, pb, hhb, hpb, hbodyeq⟩ :=
    structPack_append_split (show (headerVals m pl).length = header_format.length from rfl) hbody
  have hhblen : hb.length = 8 := by
    rw [structPack_length hhb]; rfl
  have hpblen : pb.length = fmtSize pfmt := structPack_length hpb
  have hckblen : ckb.length = 2 := by
    rw [structPack_length hck]; rfl
  have hvfmt : vals.length = pfmt.length := structPack_arity hpb
  -- key facts distinguishing the dynamic and static cases
  have hkey : fmtSize pfmt = pl ∧ List.Forall₂ sizedVal pfmt vals ∧
      (pl = 0 → vals = []) := by
    unfold update_payload_length at hup
    rw [hsch] at hup
    dsimp only at hup
    unfold get_payload_format at hfmt
    rw [hsch] at hfmt
    dsimp only at hfmt
    by_cases hdyn : isDynamic m.message_id = true
    · rw [if_pos hdyn] at hup hfmt hfield
      rw [hattrs] at hup
      dsimp only [Option.bind] at hup
      cases hlast : vals.get? (sch.field_names.length - 1) with
      | none => rw [hlast] at hup; exact absurd hup (by simp)
      | some v =>
      rw [hlast] at hup
      dsimp only at hup
      cases v with
      | vint k => exact absurd hup (by simp [pyLen])
      | vbytes vb =>
      simp only [pyLen, Except.ok.injEq] at hup
      have hvne : vals ≠ [] := by
        intro hnil
        rw [hnil] at hvlen
        simp at hvlen
        omega
      have hgl : vals.getLast? = some (Val.vbytes vb) := by
        rw [List.getLast?_eq_getElem?, ← List.get?_eq_getElem?, hvlen]
        simpa using hlast
      have hdecomp : vals.dropLast ++ [Val.vbytes vb] = vals :=
        List.dropLast_append_getLast? _ (by simp [hgl])
      by_cases hvb : vb = []
      · exfalso
        rw [hvb] at hup
        simp at hup
        rw [if_pos (by omega)] at hfmt
        have hpfmt : pfmt = [] := by simpa using hfmt.symm
        rw [hpfmt] at hvfmt
        simp only [List.length_nil] at hvfmt
        rw [List.length_eq_zero] at hvfmt
        exact hvne hvfmt
      · have hvbpos : 0 < vb.length := List.length_pos.mpr hvb
        rw [if_neg (by omega)] at hfmt
        have hpfmt : pfmt = sch.format ++ [StructCode.s (pl - sch.payload_length)] := by
          simpa using hfmt.symm
        have hsub : pl - sch.payload_length = vb.length := by omega
        refine ⟨?_, ?_, ?_⟩
        · rw [hpfmt, fmtSize_append, hfmtsz, hsub]
          rw [show fmtSize [StructCode.s vb.length] = vb.length by
                simp [fmtSize, StructCode.size]]
          omega
        · rw [hpfmt, ← hdecomp, hsub]
          refine List.rel_append ?_ ?_
          · refine forall₂_sized_of_static hstatic ?_
            rw [List.length_dropLast]
            omega
          · exact List.Forall₂.cons (by simp [sizedVal]) List.Forall₂.nil
        · intro hpl0
          omega
    · rw [if_neg hdyn] at hup hfmt hfield
      simp only [Except.ok.injEq] at hup
      have hpfmt : pfmt = sch.format := by simpa using hfmt.symm
      refine ⟨by rw [hpfmt, hfmtsz]; omega, ?_, ?_⟩
      · exact hpfmt ▸ forall₂_sized_of_static hstatic (by omega)
      · intro hpl0
        have hfmt0 : sch.format = [] := static_fmt_nil hstatic (by omega)
        have hlen0 : sch.format.length = 0 := by rw [hfmt0]; rfl
        apply List.eq_nil_of_length_eq_zero
        omega
  obtain ⟨hsize, hsized, hplnil⟩ := hkey
  have hbodylen : body.length = 8 + pl := by
    rw [structPack_length hbody, fmtSize_append, hsize]
    rfl
  -- slice identities on the output buffer
  have htake8 : out.take headerLength = hb := by
    rw [← hout, hbodyeq, List.append_assoc,
        show headerLength = hb.length from hhblen.symm, List.take_left]
  have hdrop8 : out.drop headerLength = pb ++ ckb := by
    rw [← hout, hbodyeq, List.append_assoc,
        show headerLength = hb.length from hhblen.symm, List.drop_left]
  have htakepl : (pb ++ ckb).take pl = pb := by
    rw [show pl = pb.length by rw [hpblen, hsize], List.take_left]
  have hdroppl : out.drop (headerLength + pl) = ckb := by
    rw [← hout,
        show headerLength + pl = body.length by rw [hbodylen]; rfl,
        List.drop_left]
  have htakeck : ckb.take checksumLength = ckb := by
    rw [show checksumLength = 2 from rfl]
    rw [← hckblen, List.take_length]
  -- the three unpacks succeed and return the original values
  have hHunpack : structUnpack header_format hb = some (headerVals m pl) :=
    structUnpack_structPack hhb (forall₂_sized_of_static (by decide) rfl)
  have hPunpack : structUnpack pfmt pb = some vals :=
    structUnpack_structPack hpb hsized
  have hCunpack : structUnpack checksum_format ckb =
      some [.vint ((body.take (headerLength + pl)).sum)] :=
    structUnpack_structPack hck (forall₂_sized_of_static (by decide) rfl)
  have hcksum : (body.take (headerLength + pl)).sum = body.sum := by
    rw [show headerLength + pl = body.length by rw [hbodylen]; rfl, List.take_length]
  -- replay decode on the produced buffer
  unfold decode unpack_msg_data
  rw [htake8, hHunpack]
  rw [show headerVals m pl =
        [.vint m.start_1, .vint m.start_2, .vint pl,
         .vint (m.request_id.getD m.message_id),
         .vint m.src_device_id, .vint m.dst_device_id] from rfl]
  dsimp only
  rw [hreq]
  simp only [Option.getD_none, Option.getD_some]
  rw [hdroppl, htakeck, hCunpack]
  dsimp only
  by_cases hpl : 0 < pl
  · rw [if_pos hpl, hfmt]
    dsimp only
    rw [hdrop8, htakepl, hPunpack]
    dsimp only
    rw [hsch]
    refine ⟨_, rfl, rfl, rfl, rfl, rfl, rfl, rfl, rfl, ?_, ?_, rfl⟩
    · unfold calculate_checksum
      dsimp only
      rw [hcksum, ← hout,
          show headerLength + pl = body.length by rw [hbodylen]; rfl,
          List.take_left]
    · unfold verify_checksum calculate_checksum
      dsimp only
      rw [hcksum, ← hout,
          show headerLength + pl = body.length by rw [hbodylen]; rfl,
          List.take_left]
      exact beq_self_eq_true _
  · rw [if_neg hpl]
    dsimp only
    rw [hsch]
    refine ⟨_, rfl, rfl, rfl, rfl, rfl, rfl, rfl, ?_, ?_, ?_, rfl⟩
    · rw [hplnil (by omega)]
      rfl
    · unfold calculate_checksum
      dsimp only
      rw [hcksum, ← hout,
          show headerLength + pl = body.length by rw [hbodylen]; rfl,
          List.take_left]
    · unfold verify_checksum calculate_checksum
      dsimp only
      rw [hcksum, ← hout,
          show headerLength + pl = body.length by rw [hbodylen]; rfl,
          List.take_left]
      exact beq_self_eq_true _

/-- Witness for C1: an ack message with acked_id 1202 encodes to a concrete
12-byte buffer and decodes back to itself. -/
theorem C1_roundtrip_witness :
    payload_dict 1 = some ⟨"ack", [.H], ["acked_id"], 2⟩ ∧
    pack_msg_data { message_id := 1, src_device_id := 5, dst_device_id := 6,
                    payload_attrs := some [.vint 1202] } =
      .ok [66, 82, 2, 0, 1, 0, 5, 6, 178, 4, 88, 1] ∧
    ∃ d, decode [66, 82, 2, 0, 1, 0, 5, 6, 178, 4, 88, 1] = .ok d ∧
      d.start_1 = 66 ∧ d.start_2 = 82 ∧ d.message_id = 1 ∧
      d.src_device_id = 5 ∧ d.dst_device_id = 6 ∧
      update_payload_length
        { message_id := 1, src_device_id := 5, dst_device_id := 6,
          payload_attrs := some [.vint 1202] } =
        .ok d.payload_length ∧
      d.payload_attrs.getD [] = [.vint 1202] ∧
      d.checksum = calculate_checksum d ∧
      verify_checksum d = true ∧
      d.msg_data = [66, 82, 2, 0, 1, 0, 5, 6, 178, 4, 88, 1] :=
  ⟨by decide, rfl,
    @C1_roundtrip
      { message_id := 1, src_device_id := 5, dst_device_id := 6,
        payload_attrs := some [.vint 1202] }
      [66, 82, 2, 0, 1, 0, 5, 6, 178, 4, 88, 1]
      ⟨"ack", [.H], ["acked_id"], 2⟩ [.vint 1202]
      (by decide) rfl rfl (by decide) rfl⟩

/-! Parser step lemmas shared by the parser claims. -/

theorem step_start_hit {p : PingParser} {b : Nat}
    (h : p.state = WAIT_START) (hb : b = 66) :
    parse_byte p b = .ok (WAIT_HEADER,
      { p with buf := [66], state := WAIT_HEADER }) := by
  subst hb
  simp [parse_byte, h, WAIT_START, WAIT_HEADER]

theorem step_start_miss {p : PingParser} {b : Nat}
    (h : p.state = WAIT_START) (hb : b ≠ 66) :
    parse_byte p b = .ok (WAIT_START, { p with buf := [] }) := by
  simp [parse_byte, h, hb, WAIT_START]

theorem step_header_hit {p : PingParser} {b : Nat}
    (h : p.state = WAIT_HEADER) (hb : b = 82) :
    parse_byte p b = .ok (WAIT_LENGTH_L,
      { p with buf := p.buf ++ [82], state := WAIT_LENGTH_L }) := by
  subst hb
  simp [parse_byte, h, WAIT_START, WAIT_HEADER, WAIT_LENGTH_L]

theorem step_header_miss {p : PingParser} {b : Nat}
    (h : p.state = WAIT_HEADER) (hb : b ≠ 82) :
    parse_byte p b = .ok (WAIT_START, { p with state := WAIT_START }) := by
  simp [parse_byte, h, hb, WAIT_START, WAIT_HEADER]

theorem step_length_l {p : PingParser} {b : Nat}
    (h : p.state = WAIT_LENGTH_L) :
    parse_byte p b = .ok (WAIT_LENGTH_H,
      { p with payload_length := b, buf := p.buf ++ [b],
               state := WAIT_LENGTH_H }) := by
  simp [parse_byte, h, WAIT_START, WAIT_HEADER, WAIT_LENGTH_L, WAIT_LENGTH_H]

theorem step_length_h {p : PingParser} {b : Nat}
    (h : p.state = WAIT_LENGTH_H) :
    parse_byte p b = .ok (WAIT_MSG_ID_L,
      { p with payload_length := (b <<< 8) ||| p.payload_length,
               buf := p.buf ++ [b], state := WAIT_MSG_ID_L }) := by
  simp [parse_byte, h, WAIT_START, WAIT_HEADER, WAIT_LENGTH_L, WAIT_LENGTH_H,
    WAIT_MSG_ID_L]

theorem step_id_l {p : PingParser} {b : Nat}
    (h : p.state = WAIT_MSG_ID_L) :
    parse_byte p b = .ok (WAIT_MSG_ID_H,
      { p with message_id := b, buf := p.buf ++ [b],
               state := WAIT_MSG_ID_H }) := by
  simp [parse_byte, h, WAIT_START, WAIT_HEADER, WAIT_LENGTH_L, WAIT_LENGTH_H,
    WAIT_MSG_ID_L, WAIT_MSG_ID_H]

theorem step_id_h {p : PingParser} {b : Nat}
    (h : p.state = WAIT_MSG_ID_H) :
    parse_byte p b = .ok (WAIT_SRC_ID,
      { p with message_id := (b <<< 8) ||| p.message_id,
               buf := p.buf ++ [b], state := WAIT_SRC_ID }) := by
  simp [parse_byte, h, WAIT_START, WAIT_HEADER, WAIT_LENGTH_L, WAIT_LENGTH_H,
    WAIT_MSG_ID_L, WAIT_MSG_ID_H, WAIT_SRC_ID]

theorem step_src {p : PingParser} {b : Nat}
    (h : p.state = WAIT_SRC_ID) :
    parse_byte p b = .ok (WAIT_DST_ID,
      { p with buf := p.buf ++ [b], state := WAIT_DST_ID }) := by
  simp [parse_byte, h, WAIT_START, WAIT_HEADER, WAIT_LENGTH_L, WAIT_LENGTH_H,
    WAIT_MSG_ID_L, WAIT_MSG_ID_H, WAIT_SRC_ID, WAIT_DST_ID]

theorem step_dst_empty {p : PingParser} {b : Nat}
    (h : p.state = WAIT_DST_ID) (hpl : p.payload_length = 0) :
    parse_byte p b = .ok (WAIT_CHECKSUM_L,
      { p with buf := p.buf ++ [b], state := WAIT_CHECKSUM_L }) := by
  simp [parse_byte, h, hpl, WAIT_START, WAIT_HEADER, WAIT_LENGTH_L,
    WAIT_LENGTH_H, WAIT_MSG_ID_L, WAIT_MSG_ID_H, WAIT_SRC_ID, WAIT_DST_ID,
    WAIT_PAYLOAD, WAIT_CHECKSUM_L]

theorem step_dst_payload {p : PingParser} {b : Nat}
    (h : p.state = WAIT_DST_ID) (hpl : p.payload_length ≠ 0) :
    parse_byte p b = .ok (WAIT_PAYLOAD,
      { p with buf := p.buf ++ [b], state := WAIT_PAYLOAD }) := by
  simp [parse_byte, h, hpl, WAIT_START, WAIT_HEADER, WAIT_LENGTH_L,
    WAIT_LENGTH_H, WAIT_MSG_ID_L, WAIT_MSG_ID_H, WAIT_SRC_ID, WAIT_DST_ID,
    WAIT_PAYLOAD]

theorem step_payload_more {p : PingParser} {b : Nat}
    (h : p.state = WAIT_PAYLOAD) (hpl : 1 < p.payload_length) :
    parse_byte p b = .ok (WAIT_PAYLOAD,
      { p with buf := p.buf ++ [b],
               payload_length := p.payload_length - 1 }) := by
  simp [parse_byte, h, WAIT_START, WAIT_HEADER, WAIT_LENGTH_L, WAIT_LENGTH_H,
    WAIT_MSG_ID_L, WAIT_MSG_ID_H, WAIT_SRC_ID, WAIT_DST_ID, WAIT_PAYLOAD]
  refine ⟨?_, by omega⟩
  rw [if_neg (by omega)]

theorem step_payload_last {p : PingParser} {b : Nat}
    (h : p.state = WAIT_PAYLOAD) (hpl : p.payload_length ≤ 1) :
    parse_byte p b = .ok (WAIT_CHECKSUM_L,
      { p with buf := p.buf ++ [b],
               payload_length := p.payload_length - 1,
               state := WAIT_CHECKSUM_L }) := by
  simp [parse_byte, h, WAIT_START, WAIT_HEADER, WAIT_LENGTH_L, WAIT_LENGTH_H,
    WAIT_MSG_ID_L, WAIT_MSG_ID_H, WAIT_SRC_ID, WAIT_DST_ID, WAIT_PAYLOAD,
    WAIT_CHECKSUM_L]
  refine ⟨?_, by omega⟩
  rw [if_pos (by omega)]

theorem step_ck_l {p : PingParser} {b : Nat}
    (h : p.state = WAIT_CHECKSUM_L) :
    parse_byte p b = .ok (WAIT_CHECKSUM_H,
      { p with buf := p.buf ++ [b], state := WAIT_CHECKSUM_H }) := by
  simp [parse_byte, h, WAIT_START, WAIT_HEADER, WAIT_LENGTH_L, WAIT_LENGTH_H,
    WAIT_MSG_ID_L, WAIT_MSG_ID_H, WAIT_SRC_ID, WAIT_DST_ID, WAIT_PAYLOAD,
    WAIT_CHECKSUM_L, WAIT_CHECKSUM_H]

theorem step_other {p : PingParser} {b : Nat}
    (h1 : p.state ≠ WAIT_START) (h2 : p.state ≠ WAIT_HEADER)
    (h3 : p.state ≠ WAIT_LENGTH_L) (h4 : p.state ≠ WAIT_LENGTH_H)
    (h5 : p.state ≠ WAIT_MSG_ID_L) (h6 : p.state ≠ WAIT_MSG_ID_H)
    (h7 : p.state ≠ WAIT_SRC_ID) (h8 : p.state ≠ WAIT_DST_ID)
    (h9 : p.state ≠ WAIT_PAYLOAD) (h10 : p.state ≠ WAIT_CHECKSUM_L)
    (h11 : p.state ≠ WAIT_CHECKSUM_H) :
    parse_byte p b = .ok (p.state, p) := by
  simp [parse_byte, h1, h2, h3, h4, h5, h6, h7, h8, h9, h10, h11]

theorem parse_byte_nonterminal {p : PingParser} {b : Nat}
    (hne : p.state ≠ WAIT_CHECKSUM_H) :
    ∃ r q, parse_byte p b = .ok (r, q) ∧ q.parsed = p.parsed ∧
      q.errors = p.errors ∧ q.rx_msg = p.rx_msg := by
  by_cases h1 : p.state = WAIT_START
  · by_cases hb : b = 66
    · exact ⟨_, _, step_start_hit h1 hb, rfl, rfl, rfl⟩
    · exact ⟨_, _, step_start_miss h1 hb, rfl, rfl, rfl⟩
  by_cases h2 : p.state = WAIT_HEADER
  · by_cases hb : b = 82
    · exact ⟨_, _, step_header_hit h2 hb, rfl, rfl, rfl⟩
    · exact ⟨_, _, step_header_miss h2 hb, rfl, rfl, rfl⟩
  by_cases h3 : p.state = WAIT_LENGTH_L
  · exact ⟨_, _, step_length_l h3, rfl, rfl, rfl⟩
  by_cases h4 : p.state = WAIT_LENGTH_H
  · exact ⟨_, _, step_length_h h4, rfl, rfl, rfl⟩
  by_cases h5 : p.state = WAIT_MSG_ID_L
  · exact ⟨_, _, step_id_l h5, rfl, rfl, rfl⟩
  by_cases h6 : p.state = WAIT_MSG_ID_H
  · exact ⟨_, _, step_id_h h6, rfl, rfl, rfl⟩
  by_cases h7 : p.state = WAIT_SRC_ID
  · exact ⟨_, _, step_src h7, rfl, rfl, rfl⟩
  by_cases h8 : p.state = WAIT_DST_ID
  · by_cases hpl : p.payload_length = 0
    · exact ⟨_, _, step_dst_empty h8 hpl, rfl, rfl, rfl⟩
    · exact ⟨_, _, step_dst_payload h8 hpl, rfl, rfl, rfl⟩
  by_cases h9 : p.state = WAIT_PAYLOAD
  · by_cases hpl : 1 < p.payload_length
    · exact ⟨_, _, step_payload_more h9 hpl, rfl, rfl, rfl⟩
    · exact ⟨_, _, step_payload_last h9 (by omega), rfl, rfl, rfl⟩
  by_cases h10 : p.state = WAIT_CHECKSUM_L
  · exact ⟨_, _, step_ck_l h10, rfl, rfl, rfl⟩
  exact ⟨_, _, step_other h1 h2 h3 h4 h5 h6 h7 h8 h9 h10 hne, rfl, rfl, rfl⟩

theorem parse_byte_terminal {p : PingParser} {b : Nat} {d : PingMessage}
    (hst : p.state = WAIT_CHECKSUM_H)
    (hdec : decode (p.buf ++ [b]) = .ok d) :
    (verify_checksum d = true →
      parse_byte p b = .ok (NEW_MESSAGE,
        { buf := p.buf ++ [b], state := WAIT_START, payload_length := 0,
          message_id := 0, errors := p.errors, parsed := p.parsed + 1,
          rx_msg := some d })) ∧
    (verify_checksum d = false →
      parse_byte p b = .ok (WAIT_START,
        { buf := p.buf ++ [b], state := WAIT_START, payload_length := 0,
          message_id := 0, errors := p.errors + 1, parsed := p.parsed,
          rx_msg := some d })) := by
  constructor <;> intro hv <;>
    simp [parse_byte, hst, hdec, hv, WAIT_START, WAIT_HEADER, WAIT_LENGTH_L,
      WAIT_LENGTH_H, WAIT_MSG_ID_L, WAIT_MSG_ID_H, WAIT_SRC_ID, WAIT_DST_ID,
      WAIT_PAYLOAD, WAIT_CHECKSUM_L, WAIT_CHECKSUM_H, NEW_MESSAGE]

theorem parse_byte_terminal_raise {p : PingParser} {b : Nat} {e : PyErr}
    (hst : p.state = WAIT_CHECKSUM_H)
    (hdec : decode (p.buf ++ [b]) = .error e) :
    parse_byte p b = .error (e, { p with buf := p.buf ++ [b] }) := by
  simp [parse_byte, hst, hdec, WAIT_START, WAIT_HEADER, WAIT_LENGTH_L,
    WAIT_LENGTH_H, WAIT_MSG_ID_L, WAIT_MSG_ID_H, WAIT_SRC_ID, WAIT_DST_ID,
    WAIT_PAYLOAD, WAIT_CHECKSUM_L, WAIT_CHECKSUM_H]

/-- C5 counterexample: after a valid voltage_5 frame is parsed, feeding the
same frame with a corrupted checksum shows that on the completing byte the
invalid message REPLACES rx_msg, and the value returned on the checksum
failure is WAIT_START = 1 — exactly the value parse_byte also returns for
an idle byte in WAIT_START, so no distinct PARSE_ERROR value exists. -/
theorem C5_counterexample :
    feedAll initParser
      [66, 82, 2, 0, 178, 4, 5, 6, 1, 1, 89, 1,
       66, 82, 2, 0, 178, 4, 5, 6, 1, 1, 90] =
      .ok { buf := [66, 82, 2, 0, 178, 4, 5, 6, 1, 1, 90],
            state := WAIT_CHECKSUM_H, payload_length := 0,
            message_id := 1202, errors := 0, parsed := 1,
            rx_msg := some goodVoltageMsg } ∧
    parse_byte
      { buf := [66, 82, 2, 0, 178, 4, 5, 6, 1, 1, 90],
        state := WAIT_CHECKSUM_H, payload_length := 0,
        message_id := 1202, errors := 0, parsed := 1,
        rx_msg := some goodVoltageMsg } 1 =
      .ok (WAIT_START,
        { buf := [66, 82, 2, 0, 178, 4, 5, 6, 1, 1, 90, 1],
          state := WAIT_START, payload_length := 0, message_id := 0,
          errors := 1, parsed := 1, rx_msg := some badVoltageMsg }) ∧
    verify_checksum badVoltageMsg = false ∧
    badVoltageMsg ≠ goodVoltageMsg ∧
    (parse_byte initParser 0).map Prod.fst = .ok WAIT_START := by
  refine ⟨rfl, rfl, rfl, by decide, rfl⟩

/-- C5 amended: when the byte arriving in state WAIT_CHECKSUM_H completes a
frame that decodes successfully, the decoded message is stored as rx_msg in
BOTH outcomes — an invalid frame replaces the previous rx_msg too; if the
checksum verifies, parsed is incremented and NEW_MESSAGE is returned; if
not, errors is incremented and WAIT_START is returned (the same value as
the idle-state return — there is no distinct PARSE_ERROR value); in either
outcome the parser resets to WAIT_START with the length and id accumulators
cleared. -/
theorem C5_terminal_behaviour {p : PingParser} {b : Nat} {d : PingMessage}
    (hst : p.state = WAIT_CHECKSUM_H)
    (hdec : decode (p.buf ++ [b]) = .ok d) :
    (verify_checksum d = true →
      parse_byte p b = .ok (NEW_MESSAGE,
        { buf := p.buf ++ [b], state := WAIT_START, payload_length := 0,
          message_id := 0, errors := p.errors, parsed := p.parsed + 1,
          rx_msg := some d })) ∧
    (verify_checksum d = false →
      parse_byte p b = .ok (WAIT_START,
        { buf := p.buf ++ [b], state := WAIT_START, payload_length := 0,
          message_id := 0, errors := p.errors + 1, parsed := p.parsed,
          rx_msg := some d })) :=
  parse_byte_terminal hst hdec

/-- Witness for C5: the corrupted voltage_5 frame from the counterexample
run, fed at WAIT_CHECKSUM_H. -/
theorem C5_terminal_behaviour_witness :
    (PingParser.state
      { buf := [66, 82, 2, 0, 178, 4, 5, 6, 1, 1, 90],
        state := WAIT_CHECKSUM_H, payload_length := 0, message_id := 1202,
        errors := 0, parsed := 1, rx_msg := some goodVoltageMsg }) = WAIT_CHECKSUM_H ∧
    decode ([66, 82, 2, 0, 178, 4, 5, 6, 1, 1, 90] ++ [1]) = .ok badVoltageMsg ∧
    verify_checksum badVoltageMsg = false ∧
    parse_byte
      { buf := [66, 82, 2, 0, 178, 4, 5, 6, 1, 1, 90],
        state := WAIT_CHECKSUM_H, payload_length := 0, message_id := 1202,
        errors := 0, parsed := 1, rx_msg := some goodVoltageMsg } 1 =
      .ok (WAIT_START,
        { buf := [66, 82, 2, 0, 178, 4, 5, 6, 1, 1, 90] ++ [1],
          state := WAIT_START, payload_length := 0, message_id := 0,
          errors := 0 + 1, parsed := 1, rx_msg := some badVoltageMsg }) :=
  ⟨rfl, rfl, rfl,
    (@C5_terminal_behaviour
      { buf := [66, 82, 2, 0, 178, 4, 5, 6, 1, 1, 90],
        state := WAIT_CHECKSUM_H, payload_length := 0, message_id := 1202,
        errors := 0, parsed := 1, rx_msg := some goodVoltageMsg }
      1 badVoltageMsg rfl rfl).2 rfl⟩

/-- C10 counterexample: a reachable parser state at WAIT_CHECKSUM_H whose
accumulated frame carries an unregistered message id: the completing byte
raises KeyError and NEITHER counter is incremented, refuting "exactly one
of the two is incremented precisely when the call's byte completes a
frame". -/
theorem C10_counterexample :
    feedAll initParser [66, 82, 0, 0, 255, 255, 5, 6, 0] =
      .ok { buf := [66, 82, 0, 0, 255, 255, 5, 6, 0],
            state := WAIT_CHECKSUM_H, payload_length := 0,
            message_id := 65535, errors := 0, parsed := 0,
            rx_msg := none } ∧
    parse_byte
      { buf := [66, 82, 0, 0, 255, 255, 5, 6, 0],
        state := WAIT_CHECKSUM_H, payload_length := 0,
        message_id := 65535, errors := 0, parsed := 0, rx_msg := none } 0 =
      .error (.keyError,
        { buf := [66, 82, 0, 0, 255, 255, 5, 6, 0, 0],
          state := WAIT_CHECKSUM_H, payload_length := 0,
          message_id := 65535, errors := 0, parsed := 0, rx_msg := none }) := by
  refine ⟨rfl, rfl⟩

/-- C10 amended: the counters never decrease and their sum grows by at most
one per call; a byte that does not complete a frame (state other than
WAIT_CHECKSUM_H) leaves both unchanged; a byte that completes a frame whose
decode succeeds increments exactly one of them — parsed when the checksum
verifies, errors otherwise; a byte that completes a frame whose decode
raises (unregistered id) leaves both counters unchanged. -/
theorem C10_counters (p : PingParser) (b : Nat) :
    (∀ r p', parse_byte p b = .ok (r, p') →
      p.parsed ≤ p'.parsed ∧ p.errors ≤ p'.errors ∧
      p'.parsed + p'.errors ≤ p.parsed + p.errors + 1 ∧
      (p.state ≠ WAIT_CHECKSUM_H → p'.parsed = p.parsed ∧ p'.errors = p.errors) ∧
      (p.state = WAIT_CHECKSUM_H →
        ∃ d, decode (p.buf ++ [b]) = .ok d ∧
          (verify_checksum d = true →
            p'.parsed = p.parsed + 1 ∧ p'.errors = p.errors) ∧
          (verify_checksum d = false →
            p'.parsed = p.parsed ∧ p'.errors = p.errors + 1))) ∧
    (∀ e p', parse_byte p b = .error (e, p') →
      p'.parsed = p.parsed ∧ p'.errors = p.errors) := by
  by_cases hst : p.state = WAIT_CHECKSUM_H
  · cases hdec : decode (p.buf ++ [b]) with
    | error e =>
      have hpb := parse_byte_terminal_raise hst hdec
      constructor
      · intro r p' heq
        rw [hpb] at heq
        exact absurd heq (by simp)
      · intro e' p' heq
        rw [hpb] at heq
        simp only [Except.error.injEq, Prod.mk.injEq] at heq
        obtain ⟨-, rfl⟩ := heq
        exact ⟨rfl, rfl⟩
    | ok d =>
      have hterm := parse_byte_terminal hst hdec
      constructor
      · intro r p' heq
        cases hv : verify_checksum d with
        | true =>
          rw [hterm.1 hv] at heq
          simp only [Except.ok.injEq, Prod.mk.injEq] at heq
          obtain ⟨-, rfl⟩ := heq
          refine ⟨Nat.le_succ _, Nat.le_refl _, by dsimp only; omega,
            fun h => absurd hst h, fun _ => ⟨d, rfl, fun _ => ⟨rfl, rfl⟩,
              fun hf => by rw [hv] at hf; exact absurd hf (by decide)⟩⟩
        | false =>
          rw [hterm.2 hv] at heq
          simp only [Except.ok.injEq, Prod.mk.injEq] at heq
          obtain ⟨-, rfl⟩ := heq
          refine ⟨Nat.le_refl _, Nat.le_succ _, by dsimp only; omega,
            fun h => absurd hst h, fun _ => ⟨d, rfl,
              fun ht => by rw [hv] at ht; exact absurd ht (by decide),
              fun _ => ⟨rfl, rfl⟩⟩⟩
      · intro e' p' heq
        cases hv : verify_checksum d with
        | true => rw [hterm.1 hv] at heq; exact absurd heq (by simp)
        | false => rw [hterm.2 hv] at heq; exact absurd heq (by simp)
  · obtain ⟨r0, q, hpb, hparsed, herr, -⟩ := parse_byte_nonterminal hst
    constructor
    · intro r p' heq
      rw [hpb] at heq
      simp only [Except.ok.injEq, Prod.mk.injEq] at heq
      obtain ⟨-, rfl⟩ := heq
      exact ⟨by omega, by omega, by omega, fun _ => ⟨hparsed, herr⟩,
        fun h => absurd h hst⟩
    · intro e p' heq
      rw [hpb] at heq
      exact absurd heq (by simp)

/-- Witness for C10: the first byte of a frame fed to a fresh parser leaves
both counters at zero. -/
theorem C10_counters_witness :
    parse_byte initParser 66 =
      .ok (WAIT_HEADER,
        { buf := [66], state := WAIT_HEADER, payload_length := 0,
          message_id := 0, errors := 0, parsed := 0, rx_msg := none }) ∧
    (initParser.parsed ≤ 0 ∧ initParser.errors ≤ 0 ∧
      (0 : Nat) + 0 ≤ initParser.parsed + initParser.errors + 1 ∧
      (initParser.state ≠ WAIT_CHECKSUM_H → 0 = initParser.parsed ∧ 0 = initParser.errors) ∧
      (initParser.state = WAIT_CHECKSUM_H →
        ∃ d, decode (initParser.buf ++ [66]) = .ok d ∧
          (verify_checksum d = true → 0 = initParser.parsed + 1 ∧ 0 = initParser.errors) ∧
          (verify_checksum d = false → 0 = initParser.parsed ∧ 0 = initParser.errors + 1))) :=
  ⟨rfl, (C10_counters initParser 66).1 WAIT_HEADER
    { buf := [66], state := WAIT_HEADER, payload_length := 0,
      message_id := 0, errors := 0, parsed := 0, rx_msg := none } rfl⟩

/-! Whole-frame feeding: running the parser over one complete frame. -/

theorem feedAll_step {p q : PingParser} {b r : Nat} {rest : List Nat}
    (h : parse_byte p b = .ok (r, q)) :
    feedAll p (b :: rest) = feedAll q rest := by
  simp [feedAll, h]

theorem feed_payload : ∀ (chunk : List Nat) (p : PingParser) (rest : List Nat),
    p.state = WAIT_PAYLOAD → p.payload_length = chunk.length → chunk ≠ [] →
    feedAll p (chunk ++ rest) =
      feedAll { p with buf := p.buf ++ chunk, payload_length := 0,
                       state := WAIT_CHECKSUM_L } rest
  | [], _, _, _, _, hne => absurd rfl hne
  | [b], p, rest, hst, hlen, _ => by
    rw [List.singleton_append,
        feedAll_step (step_payload_last hst (by rw [hlen]; simp))]
    rw [show p.payload_length - 1 = 0 by rw [hlen]; simp]
  | b :: c :: chunk, p, rest, hst, hlen, _ => by
    rw [List.cons_append,
        feedAll_step (step_payload_more hst
          (by rw [hlen]; simp only [List.length_cons]; omega))]
    rw [feed_payload (c :: chunk)
        { p with buf := p.buf ++ [b], payload_length := p.payload_length - 1 }
        rest hst (by dsimp only; rw [hlen]; simp) (by simp)]
    simp

theorem feed_last {p : PingParser} {b : Nat} {d : PingMessage}
    (hst : p.state = WAIT_CHECKSUM_H)
    (hdec : decode (p.buf ++ [b]) = .ok d) :
    feedAll p [b] =
      .ok { buf := p.buf ++ [b], state := WAIT_START, payload_length := 0,
            message_id := 0,
            errors := p.errors + (if verify_checksum d then 0 else 1),
            parsed := p.parsed + (if verify_checksum d then 1 else 0),
            rx_msg := some d } := by
  cases hv : verify_checksum d with
  | true =>
    rw [feedAll_step ((parse_byte_terminal hst hdec).1 hv)]
    simp [feedAll, hv]
  | false =>
    rw [feedAll_step ((parse_byte_terminal hst hdec).2 hv)]
    simp [feedAll, hv]

theorem feed_frame {p : PingParser} {b2 b3 b4 b5 b6 b7 cLo cHi : Nat}
    {payload : List Nat} {d : PingMessage}
    (hst : p.state = WAIT_START)
    (hlen : payload.length = b2 + 256 * b3)
    (hb2 : b2 < 256)
    (hdec : decode (66::82::b2::b3::b4::b5::b6::b7::(payload ++ [cLo, cHi])) = .ok d) :
    feedAll p (66::82::b2::b3::b4::b5::b6::b7::(payload ++ [cLo, cHi])) =
      .ok { buf := 66::82::b2::b3::b4::b5::b6::b7::(payload ++ [cLo, cHi]),
            state := WAIT_START, payload_length := 0, message_id := 0,
            errors := p.errors + (if verify_checksum d then 0 else 1),
            parsed := p.parsed + (if verify_checksum d then 1 else 0),
            rx_msg := some d } := by
  rw [feedAll_step (step_start_hit hst rfl),
      feedAll_step (step_header_hit rfl rfl),
      feedAll_step (step_length_l rfl),
      feedAll_step (step_length_h rfl),
      feedAll_step (step_id_l rfl),
      feedAll_step (step_id_h rfl),
      feedAll_step (step_src rfl)]
  have hlor : (b3 <<< 8) ||| b2 = 256 * b3 + b2 := lor_byte b3 b2 hb2
  by_cases hpl0 : b2 + 256 * b3 = 0
  · -- empty payload: WAIT_DST jumps straight to WAIT_CHECKSUM_L
    have hpayload : payload = [] := by
      apply List.eq_nil_of_length_eq_zero
      omega
    subst hpayload
    rw [show (([] : List Nat) ++ [cLo, cHi]) = cLo :: [cHi] from rfl]
    rw [feedAll_step (step_dst_empty rfl (by dsimp only; rw [hlor]; omega))]
    rw [feedAll_step (step_ck_l rfl)]
    refine Eq.trans
      (@feed_last
        { buf := [66, 82, b2, b3, b4, b5, b6, b7, cLo],
          state := WAIT_CHECKSUM_H,
          payload_length := (b3 <<< 8) ||| b2,
          message_id := (b5 <<< 8) ||| b4,
          errors := p.errors, parsed := p.parsed, rx_msg := p.rx_msg }
        cHi d rfl ?_) ?_
    · exact hdec
    · cases hv : verify_checksum d <;> simp [hv]
  · -- non-empty payload: consume it byte by byte in WAIT_PAYLOAD
    have hne : payload ≠ [] := by
      intro h
      rw [h] at hlen
      simp at hlen
      omega
    rw [feedAll_step (step_dst_payload rfl (by dsimp only; rw [hlor]; omega))]
    rw [feed_payload payload _ [cLo, cHi] rfl (by dsimp only; rw [hlor]; omega) hne]
    rw [feedAll_step (step_ck_l rfl)]
    have hdec9 : decode
        ((66::82::b2::b3::b4::b5::b6::b7::(payload ++ [cLo])) ++ [cHi]) = .ok d := by
      rw [show (66::82::b2::b3::b4::b5::b6::b7::(payload ++ [cLo])) ++ [cHi]
            = 66::82::b2::b3::b4::b5::b6::b7::(payload ++ [cLo, cHi]) by simp]
      exact hdec
    refine Eq.trans
      (@feed_last
        { buf := 66::82::b2::b3::b4::b5::b6::b7::(payload ++ [cLo]),
          state := WAIT_CHECKSUM_H,
          payload_length := 0,
          message_id := (b5 <<< 8) ||| b4,
          errors := p.errors, parsed := p.parsed, rx_msg := p.rx_msg }
        cHi d rfl ?_) ?_
    · exact hdec9
    · cases hv : verify_checksum d <;> simp [hv]

/-- C2 counterexample: the buffer 41 52 02 00 B2 04 05 06 01 01 58 01
decodes successfully and its checksum verifies (unpack_msg_data never
checks the magic bytes), yet feeding its bytes one at a time to a fresh
parser produces no stored message at all: the parser never leaves
WAIT_START because the first byte is not 0x42. -/
theorem C2_counterexample :
    (∃ dm, decode [65, 82, 2, 0, 178, 4, 5, 6, 1, 1, 88, 1] = .ok dm ∧
      verify_checksum dm = true ∧ dm.message_id = 1202) ∧
    feedAll initParser [65, 82, 2, 0, 178, 4, 5, 6, 1, 1, 88, 1] =
      .ok initParser ∧
    initParser.rx_msg = none :=
  ⟨⟨_, rfl, rfl, rfl⟩, rfl, rfl⟩

/-- C2 amended: for every complete, valid frame that moreover begins with
the magic bytes 0x42 0x52 and has length exactly header (8) + declared
payload_length + 2, feeding its bytes one at a time to a parser in the
WAIT_START state stores, on the last byte, exactly the message obtained by
decoding the whole buffer in one call, and increments parsed. The magic
byte and exact-length conditions are necessary: decode alone never checks
the start bytes and ignores trailing bytes. -/
theorem C2_incremental {p : PingParser} {b2 b3 b4 b5 b6 b7 cLo cHi : Nat}
    {payload : List Nat} {d : PingMessage}
    (hst : p.state = WAIT_START)
    (hlen : payload.length = b2 + 256 * b3)
    (hb2 : b2 < 256)
    (hdec : decode (66::82::b2::b3::b4::b5::b6::b7::(payload ++ [cLo, cHi])) = .ok d)
    (hv : verify_checksum d = true) :
    feedAll p (66::82::b2::b3::b4::b5::b6::b7::(payload ++ [cLo, cHi])) =
      .ok { buf := 66::82::b2::b3::b4::b5::b6::b7::(payload ++ [cLo, cHi]),
            state := WAIT_START, payload_length := 0, message_id := 0,
            errors := p.errors, parsed := p.parsed + 1,
            rx_msg := some d } := by
  rw [feed_frame hst hlen hb2 hdec]
  simp [hv]

/-- Witness for C2: the valid voltage_5 test frame fed to a fresh parser
yields exactly the message that direct decoding yields. -/
theorem C2_incremental_witness :
    decode [66, 82, 2, 0, 178, 4, 5, 6, 1, 1, 89, 1] = .ok goodVoltageMsg ∧
    verify_checksum goodVoltageMsg = true ∧
    feedAll initParser [66, 82, 2, 0, 178, 4, 5, 6, 1, 1, 89, 1] =
      .ok { buf := [66, 82, 2, 0, 178, 4, 5, 6, 1, 1, 89, 1],
            state := WAIT_START, payload_length := 0, message_id := 0,
            errors := 0, parsed := 0 + 1, rx_msg := some goodVoltageMsg } :=
  ⟨rfl, rfl,
    @C2_incremental initParser 2 0 178 4 5 6 89 1 [1, 1] goodVoltageMsg
      rfl rfl (by omega) rfl rfl⟩

/-! The parser invariant: established initially, preserved by every
successful step, and strong enough to classify the only raising step. -/

theorem exists_pair_of_length_two {α : Type} {l : List α} (h : l.length = 2) :
    ∃ a b, l = [a, b] := by
  cases l with
  | nil => simp at h
  | cons a t =>
    cases t with
    | nil => simp at h
    | cons b t2 =>
      cases t2 with
      | nil => exact ⟨a, b, rfl⟩
      | cons c t3 => simp at h

theorem Inv_init : Inv initParser := by
  constructor
  · intro x hx
    simp [initParser] at hx
  · left
    rfl

theorem Inv_preserved {p : PingParser} {b r : Nat} {q : PingParser}
    (hInv : Inv p) (hb : b < 256)
    (hstep : parse_byte p b = .ok (r, q)) : Inv q := by
  obtain ⟨hbytes, hcase⟩ := hInv
  have hbytes' : ∀ x ∈ p.buf ++ [b], x < 256 := by
    intro x hx
    rcases List.mem_append.mp hx with h | h
    · exact hbytes x h
    · simp at h
      omega
  rcases hcase with h1 | h2 | h3 | h4 | h5 | h6 | h7 | h8 | h9 | h10 | h11
  · -- WAIT_START
    by_cases hb66 : b = 66
    · rw [step_start_hit h1 hb66] at hstep
      simp only [Except.ok.injEq, Prod.mk.injEq] at hstep
      obtain ⟨-, rfl⟩ := hstep
      refine ⟨?_, Or.inr (Or.inl ⟨rfl, rfl⟩)⟩
      intro x hx
      simp at hx
      omega
    · rw [step_start_miss h1 hb66] at hstep
      simp only [Except.ok.injEq, Prod.mk.injEq] at hstep
      obtain ⟨-, rfl⟩ := hstep
      exact ⟨by intro x hx; simp at hx, Or.inl h1⟩
  · -- WAIT_HEADER
    obtain ⟨h2, hlen⟩ := h2
    by_cases hb82 : b = 82
    · subst hb82
      rw [step_header_hit h2 rfl] at hstep
      simp only [Except.ok.injEq, Prod.mk.injEq] at hstep
      obtain ⟨-, rfl⟩ := hstep
      exact ⟨hbytes', Or.inr (Or.inr (Or.inl ⟨rfl, by simp [hlen]⟩))⟩
    · rw [step_header_miss h2 hb82] at hstep
      simp only [Except.ok.injEq, Prod.mk.injEq] at hstep
      obtain ⟨-, rfl⟩ := hstep
      exact ⟨hbytes, Or.inl rfl⟩
  · -- WAIT_LENGTH_L
    obtain ⟨h3, hlen⟩ := h3
    obtain ⟨b0, b1, hbuf⟩ := exists_pair_of_length_two hlen
    rw [step_length_l h3] at hstep
    simp only [Except.ok.injEq, Prod.mk.injEq] at hstep
    obtain ⟨-, rfl⟩ := hstep
    refine ⟨hbytes', Or.inr (Or.inr (Or.inr (Or.inl
      ⟨rfl, b0, b1, b, by rw [hbuf]; rfl, rfl⟩)))⟩
  · -- WAIT_LENGTH_H
    obtain ⟨h4, b0, b1, b2, hbuf, hpl⟩ := h4
    have hb2lt : b2 < 256 := hbytes b2 (by rw [hbuf]; simp)
    rw [step_length_h h4] at hstep
    simp only [Except.ok.injEq, Prod.mk.injEq] at hstep
    obtain ⟨-, rfl⟩ := hstep
    refine ⟨hbytes', Or.inr (Or.inr (Or.inr (Or.inr (Or.inl
      ⟨rfl, b0, b1, b2, b, by rw [hbuf]; rfl, ?_⟩))))⟩
    show (b <<< 8) ||| p.payload_length = b2 + 256 * b
    rw [hpl, lor_byte b b2 hb2lt]
    omega
  · -- WAIT_MSG_ID_L
    obtain ⟨h5, b0, b1, b2, b3, hbuf, hpl⟩ := h5
    rw [step_id_l h5] at hstep
    simp only [Except.ok.injEq, Prod.mk.injEq] at hstep
    obtain ⟨-, rfl⟩ := hstep
    exact ⟨hbytes', Or.inr (Or.inr (Or.inr (Or.inr (Or.inr (Or.inl
      ⟨rfl, b0, b1, b2, b3, b, by rw [hbuf]; rfl, hpl⟩)))))⟩
  · -- WAIT_MSG_ID_H
    obtain ⟨h6, b0, b1, b2, b3, b4, hbuf, hpl⟩ := h6
    rw [step_id_h h6] at hstep
    simp only [Except.ok.injEq, Prod.mk.injEq] at hstep
    obtain ⟨-, rfl⟩ := hstep
    exact ⟨hbytes', Or.inr (Or.inr (Or.inr (Or.inr (Or.inr (Or.inr (Or.inl
      ⟨rfl, b0, b1, b2, b3, b4, b, by rw [hbuf]; rfl, hpl⟩))))))⟩
  · -- WAIT_SRC_ID
    obtain ⟨h7, b0, b1, b2, b3, b4, b5, hbuf, hpl⟩ := h7
    rw [step_src h7] at hstep
    simp only [Except.ok.injEq, Prod.mk.injEq] at hstep
    obtain ⟨-, rfl⟩ := hstep
    exact ⟨hbytes', Or.inr (Or.inr (Or.inr (Or.inr (Or.inr (Or.inr (Or.inr
      (Or.inl ⟨rfl, b0, b1, b2, b3, b4, b5, b, by rw [hbuf]; rfl, hpl⟩)))))))⟩
  · -- WAIT_DST_ID
    obtain ⟨h8, b0, b1, b2, b3, b4, b5, b6, hbuf, hpl⟩ := h8
    by_cases hpl0 : p.payload_length = 0
    · rw [step_dst_empty h8 hpl0] at hstep
      simp only [Except.ok.injEq, Prod.mk.injEq] at hstep
      obtain ⟨-, rfl⟩ := hstep
      refine ⟨hbytes', Or.inr (Or.inr (Or.inr (Or.inr (Or.inr (Or.inr (Or.inr
        (Or.inr (Or.inr (Or.inl
          ⟨rfl, b0, b1, b2, b3, b4, b5, b6, b, [],
           by rw [hbuf]; simp, by simp only [List.length_nil]; omega⟩)))))))))⟩
    · rw [step_dst_payload h8 hpl0] at hstep
      simp only [Except.ok.injEq, Prod.mk.injEq] at hstep
      obtain ⟨-, rfl⟩ := hstep
      refine ⟨hbytes', Or.inr (Or.inr (Or.inr (Or.inr (Or.inr (Or.inr (Or.inr
        (Or.inr (Or.inl
          ⟨rfl, b0, b1, b2, b3, b4, b5, b6, b, [],
           by rw [hbuf]; simp, by dsimp only; omega,
           by dsimp only; simp only [List.length_nil]; omega⟩))))))))⟩
  · -- WAIT_PAYLOAD
    obtain ⟨h9, b0, b1, b2, b3, b4, b5, b6, b7, part, hbuf, h1le, hsum⟩ := h9
    by_cases hgt : 1 < p.payload_length
    · rw [step_payload_more h9 hgt] at hstep
      simp only [Except.ok.injEq, Prod.mk.injEq] at hstep
      obtain ⟨-, rfl⟩ := hstep
      refine ⟨hbytes', Or.inr (Or.inr (Or.inr (Or.inr (Or.inr (Or.inr (Or.inr
        (Or.inr (Or.inl
          ⟨h9, b0, b1, b2, b3, b4, b5, b6, b7, part ++ [b],
           by rw [hbuf]; simp, by dsimp only; omega,
           by dsimp only; simp only [List.length_append, List.length_singleton]; omega⟩))))))))⟩
    · rw [step_payload_last h9 (by omega)] at hstep
      simp only [Except.ok.injEq, Prod.mk.injEq] at hstep
      obtain ⟨-, rfl⟩ := hstep
      refine ⟨hbytes', Or.inr (Or.inr (Or.inr (Or.inr (Or.inr (Or.inr (Or.inr
        (Or.inr (Or.inr (Or.inl
          ⟨rfl, b0, b1, b2, b3, b4, b5, b6, b7, part ++ [b],
           by rw [hbuf]; simp,
           by simp only [List.length_append, List.length_singleton]; omega⟩)))))))))⟩
  · -- WAIT_CHECKSUM_L
    obtain ⟨h10, b0, b1, b2, b3, b4, b5, b6, b7, part, hbuf, hsum⟩ := h10
    rw [step_ck_l h10] at hstep
    simp only [Except.ok.injEq, Prod.mk.injEq] at hstep
    obtain ⟨-, rfl⟩ := hstep
    refine ⟨hbytes', Or.inr (Or.inr (Or.inr (Or.inr (Or.inr (Or.inr (Or.inr
      (Or.inr (Or.inr (Or.inr
        ⟨rfl, b0, b1, b2, b3, b4, b5, b6, b7, part ++ [b],
         by rw [hbuf]; simp,
         by simp only [List.length_append, List.length_singleton]; omega⟩)))))))))⟩
  · -- WAIT_CHECKSUM_H
    obtain ⟨h11, -⟩ := h11
    cases hdec : decode (p.buf ++ [b]) with
    | error e =>
      rw [parse_byte_terminal_raise h11 hdec] at hstep
      exact absurd hstep (by simp)
    | ok d =>
      have hterm := parse_byte_terminal h11 hdec
      cases hv : verify_checksum d with
      | true =>
        rw [hterm.1 hv] at hstep
        simp only [Except.ok.injEq, Prod.mk.injEq] at hstep
        obtain ⟨-, rfl⟩ := hstep
        exact ⟨hbytes', Or.inl rfl⟩
      | false =>
        rw [hterm.2 hv] at hstep
        simp only [Except.ok.injEq, Prod.mk.injEq] at hstep
        obtain ⟨-, rfl⟩ := hstep
        exact ⟨hbytes', Or.inl rfl⟩

theorem parse_byte_error_classify {p : PingParser} {b : Nat} {e : PyErr}
    {q : PingParser} (hInv : Inv p) (hstep : parse_byte p b = .error (e, q)) :
    p.state = WAIT_CHECKSUM_H ∧ e = .keyError ∧
    decode (p.buf ++ [b]) = .error .keyError ∧
    payload_dict (p.buf.getD 4 0 + 256 * p.buf.getD 5 0) = none := by
  by_cases hst : p.state = WAIT_CHECKSUM_H
  · obtain ⟨hbytes, hcase⟩ := hInv
    rcases hcase with h | h | h | h | h | h | h | h | h | h | h
    · rw [h] at hst; exact absurd hst (by decide)
    · rw [h.1] at hst; exact absurd hst (by decide)
    · rw [h.1] at hst; exact absurd hst (by decide)
    · rw [h.1] at hst; exact absurd hst (by decide)
    · rw [h.1] at hst; exact absurd hst (by decide)
    · rw [h.1] at hst; exact absurd hst (by decide)
    · rw [h.1] at hst; exact absurd hst (by decide)
    · rw [h.1] at hst; exact absurd hst (by decide)
    · rw [h.1] at hst; exact absurd hst (by decide)
    · rw [h.1] at hst; exact absurd hst (by decide)
    obtain ⟨-, b0, b1, b2, b3, b4, b5, b6, b7, part, hbuf, hplen⟩ := h
    have hne : part ≠ [] := by
      intro hnil
      rw [hnil] at hplen
      simp at hplen
    obtain ⟨payload, cLo, hpart⟩ : ∃ payload cLo, part = payload ++ [cLo] :=
      ⟨part.dropLast, part.getLast hne, (List.dropLast_append_getLast hne).symm⟩
    subst hpart
    have hlen : payload.length = b2 + 256 * b3 := by
      simp only [List.length_append, List.length_singleton] at hplen
      omega
    have hsh : p.buf ++ [b] =
        b0::b1::b2::b3::b4::b5::b6::b7::(payload ++ [cLo, b]) := by
      rw [hbuf]
      simp
    have hgd : p.buf.getD 4 0 + 256 * p.buf.getD 5 0 = b4 + 256 * b5 := by
      rw [hbuf]
      rfl
    cases hdict : payload_dict (b4 + 256 * b5) with
    | some sch =>
      exfalso
      obtain ⟨pfmt, hfmt⟩ := get_payload_format_isSome (b2 + 256 * b3) hdict
      have hdec : decode (p.buf ++ [b]) = .ok
          { start_1 := b0, start_2 := b1, message_id := b4 + 256 * b5,
            request_id := none, payload_length := b2 + 256 * b3,
            dst_device_id := b7, src_device_id := b6,
            checksum := cLo + 256 * b,
            msg_data := b0::b1::b2::b3::b4::b5::b6::b7::(payload ++ [cLo, b]),
            payload_attrs := if 0 < b2 + 256 * b3
              then structUnpack pfmt payload else none } := by
        rw [hsh]
        exact decode_ok hdict hfmt hlen
      have hterm := parse_byte_terminal hst hdec
      cases hv : verify_checksum _ with
      | true => rw [hterm.1 hv] at hstep; exact absurd hstep (by simp)
      | false => rw [hterm.2 hv] at hstep; exact absurd hstep (by simp)
    | none =>
      have hdec : decode (p.buf ++ [b]) = .error .keyError := by
        rw [hsh]
        exact decode_unknown hdict hlen
      rw [parse_byte_terminal_raise hst hdec] at hstep
      simp only [Except.error.injEq, Prod.mk.injEq] at hstep
      exact ⟨hst, hstep.1.symm, hdec, by rw [hgd]; exact hdict⟩
  · obtain ⟨r, q', hok, -⟩ := parse_byte_nonterminal hst
    rw [hok] at hstep
    exact absurd hstep (by simp)

theorem feedAll_error_characterize :
    ∀ (bytes : List Nat) (p q : PingParser) (b : Nat),
    (∀ x ∈ bytes, x < 256) → Inv p →
    feedAll p bytes = .error (q, b) →
    q.state = WAIT_CHECKSUM_H ∧ decode (q.buf ++ [b]) = .error .keyError ∧
    payload_dict (q.buf.getD 4 0 + 256 * q.buf.getD 5 0) = none
  | [], p, q, b, _, _, h => by simp [feedAll] at h
  | c :: rest, p, q, b, hbytes, hInv, h => by
    have hc : c < 256 := hbytes c (by simp)
    cases hstep : parse_byte p c with
    | ok rp =>
      obtain ⟨r, p'⟩ := rp
      rw [feedAll_step hstep] at h
      exact feedAll_error_characterize rest p' q b
        (fun x hx => hbytes x (by simp [hx])) (Inv_preserved hInv hc hstep) h
    | error ep =>
      obtain ⟨e, p''⟩ := ep
      rw [show feedAll p (c :: rest) = .error (p, c) by simp [feedAll, hstep]] at h
      simp only [Except.error.injEq, Prod.mk.injEq] at h
      obtain ⟨rfl, rfl⟩ := h
      obtain ⟨hst, -, hdec, hdict⟩ := parse_byte_error_classify hInv hstep
      exact ⟨hst, hdec, hdict⟩

/-- C8 counterexample: the well-framed 10-byte sequence
42 52 00 00 FF FF 05 06 00 00 (declared payload length 0, message id
0xFFFF, which has no schema) makes parse_byte raise KeyError on its last
byte, refuting "parse_byte never raises an exception"; and the parser is
NOT usable afterward: the raise happens after the byte was appended to the
buffer but before the state reset, so the object is left in
WAIT_CHECKSUM_H with the full frame buffered, and the next byte fed - here
0x42, the start of a fresh valid frame - raises KeyError again. -/
theorem C8_counterexample :
    feedAll initParser [66, 82, 0, 0, 255, 255, 5, 6, 0, 0] =
      .error ({ buf := [66, 82, 0, 0, 255, 255, 5, 6, 0],
                state := WAIT_CHECKSUM_H, payload_length := 0,
                message_id := 65535, errors := 0, parsed := 0,
                rx_msg := none }, 0) ∧
    parse_byte
      { buf := [66, 82, 0, 0, 255, 255, 5, 6, 0, 0],
        state := WAIT_CHECKSUM_H, payload_length := 0, message_id := 65535,
        errors := 0, parsed := 0, rx_msg := none } 66 =
      .error (.keyError,
        { buf := [66, 82, 0, 0, 255, 255, 5, 6, 0, 0, 66],
          state := WAIT_CHECKSUM_H, payload_length := 0, message_id := 65535,
          errors := 0, parsed := 0, rx_msg := none }) :=
  ⟨rfl, rfl⟩

/-- C8 amended: starting from a fresh parser, parse_byte raises only in one
situation - the fed byte completes a well-framed frame (state
WAIT_CHECKSUM_H) whose message id has no schema entry, where the terminal
decode raises KeyError; on every byte sequence avoiding that situation the
parser never raises. After any non-raising outcome the parser is back in a
live state, and from WAIT_START (where every completed or abandoned frame
leaves it) a subsequent valid frame - magic bytes, exact declared length,
verifying checksum - is parsed correctly: the run succeeds, stores the
decoded message in rx_msg and increments parsed. -/
theorem C8_exception_and_resync :
    (∀ (bytes : List Nat) (q : PingParser) (b : Nat),
      (∀ x ∈ bytes, x < 256) →
      feedAll initParser bytes = .error (q, b) →
      q.state = WAIT_CHECKSUM_H ∧
      decode (q.buf ++ [b]) = .error .keyError ∧
      payload_dict (q.buf.getD 4 0 + 256 * q.buf.getD 5 0) = none) ∧
    (∀ (p : PingParser) (b2 b3 b4 b5 b6 b7 cLo cHi : Nat)
       (payload : List Nat) (d : PingMessage),
      p.state = WAIT_START →
      payload.length = b2 + 256 * b3 → b2 < 256 →
      decode (66::82::b2::b3::b4::b5::b6::b7::(payload ++ [cLo, cHi])) = .ok d →
      verify_checksum d = true →
      feedAll p (66::82::b2::b3::b4::b5::b6::b7::(payload ++ [cLo, cHi])) =
        .ok { buf := 66::82::b2::b3::b4::b5::b6::b7::(payload ++ [cLo, cHi]),
              state := WAIT_START, payload_length := 0, message_id := 0,
              errors := p.errors, parsed := p.parsed + 1,
              rx_msg := some d }) := by
  constructor
  · intro bytes q b hb h
    exact feedAll_error_characterize bytes initParser q b hb Inv_init h
  · intro p b2 b3 b4 b5 b6 b7 cLo cHi payload d hst hlen hb2 hdec hv
    rw [feed_frame hst hlen hb2 hdec]
    simp [hv]

/-- C8 witness: the first part applied to the concrete unknown-id sequence
of the counterexample (yielding that id 0xFFFF has no schema), the second
part applied to a fresh parser and the valid voltage_5 frame. -/
theorem C8_exception_and_resync_witness :
    payload_dict 65535 = none ∧
    feedAll initParser [66, 82, 2, 0, 178, 4, 5, 6, 1, 1, 89, 1] =
      .ok { buf := [66, 82, 2, 0, 178, 4, 5, 6, 1, 1, 89, 1],
            state := WAIT_START, payload_length := 0, message_id := 0,
            errors := 0, parsed := 1, rx_msg := some goodVoltageMsg } := by
  constructor
  · exact (C8_exception_and_resync.1 [66, 82, 0, 0, 255, 255, 5, 6, 0, 0]
      { buf := [66, 82, 0, 0, 255, 255, 5, 6, 0],
        state := WAIT_CHECKSUM_H, payload_length := 0, message_id := 65535,
        errors := 0, parsed := 0, rx_msg := none } 0 (by decide) rfl).2.2
  · exact C8_exception_and_resync.2 initParser 2 0 178 4 5 6 89 1 [1, 1]
      goodVoltageMsg rfl rfl (by omega) rfl rfl

end Ping
